import Mathlib

/-!
Verification development for the loda-rust program-synthesis engine.

The definitions below are shallow embeddings of the Rust sources:
* `src/src/execute/node_loop_advanced.rs` (`NodeLoopConstant::eval`),
* `src/rust_project/loda-rust-core/src/execute/node_move.rs` (`NodeMoveAdvanced::eval`),
* `src/rust_project/loda-rust-cli/src/mine/genome.rs` (the `Genome` mutation operators),
* `src/rust_project/loda-rust-cli/src/arc/traverse_programs_and_models.rs`
  (the batch scheduler).

Components of the repository whose sources are not available here
(`ProgramState::is_less`, `GenomeItem`, the assembly parser, the virtual
machine that executes mined programs) are modelled from the specification;
each such definition carries a doc comment starting `Modelled from the spec`.
-/

namespace LodaRust

/-! ## Program state of the old virtual machine

`ProgramState` (`program_state.rs`) holds the ordered register values.
We model the register file as a list of integers; reads outside the list
default to zero.
-/

/-- The register file of the old virtual machine: an ordered list of
integer register values. -/
abbrev ProgState := List Int

/-- Read one register; registers beyond the allocated vector read as 0. -/
def regGet (s : ProgState) (i : Nat) : Int := s.getD i 0

/-- Modelled from the spec: `ProgramState::is_less` (in `program_state.rs`,
not part of this snapshot).  The spec says the loop compares the window
`[register, register+range_length)` of the new state against the snapshot
and continues only when it is "strictly smaller under the chosen
comparison".  The comparison is fixed so that the spec's worked example
(`lpb $0,1 / sub $0,1 / lpe` counting 5 down to 0 and stopping there)
holds: the window is compared lexicographically with negative values
clamped to zero. -/
def windowLess (s t : ProgState) (reg : Nat) : Nat → Bool
  | 0 => false
  | n + 1 =>
      let a := max (regGet s reg) 0
      let b := max (regGet t reg) 0
      if a < b then true
      else if b < a then false
      else windowLess s t (reg + 1) n

/-- One register never compares below itself, so an identity window is
never "strictly smaller". -/
theorem windowLess_self (t : ProgState) : ∀ (n reg : Nat), windowLess t t reg n = false := by
  intro n
  induction n with
  | zero => intro reg; rfl
  | succ m ih =>
      intro reg
      simp only [windowLess, lt_irrefl, if_false]
      exact ih (reg + 1)

/-! ## `NodeLoopConstant::eval` (`src/src/execute/node_loop_advanced.rs`)

The Rust loop clones the state, runs the loop body once, and checks
`is_less`; when the window did not shrink it restores the snapshot and
exits.  Otherwise it increments `cycles` and panics as soon as
`cycles > 1000`.  The panic is modelled as `none`; normal termination
returns the final state together with the number of completed cycles.
The body `Program::run` of this old engine has no error channel, so it is
a plain state transformer. -/

/-- The loop of `NodeLoopConstant::eval`, with the remaining cycle budget
as structural fuel.  `fuel = 1001 - cycles` at every call, so reaching
`fuel = 0` is exactly the `cycles > 1000` panic of the source. -/
def nodeLoopConstantGo (body : ProgState → ProgState) (reg rangeLength : Nat) :
    Nat → ProgState → Nat → Option (ProgState × Nat)
  | 0, _, _ => none
  | fuel + 1, state, cycles =>
      let oldState := state
      let nextState := body state
      if windowLess nextState oldState reg rangeLength then
        nodeLoopConstantGo body reg rangeLength fuel nextState (cycles + 1)
      else
        some (oldState, cycles)

/-- `NodeLoopConstant::eval`: run the loop from a given state.  `none`
models the `panic!("looped too many times")` of the source; `some (s, c)`
is normal exit with restored state `s` after `c` completed cycles. -/
def nodeLoopConstantEval (body : ProgState → ProgState) (reg rangeLength : Nat)
    (state : ProgState) : Option (ProgState × Nat) :=
  nodeLoopConstantGo body reg rangeLength 1001 state 0

/-- Modelled from the spec: the `sub` instruction (`node_subtract.rs`, not
part of this snapshot) is a pure, total subtraction on one register. -/
def subConst (reg : Nat) (c : Int) (s : ProgState) : ProgState :=
  s.set reg (regGet s reg - c)

/-- Countdown lemma: while the monitored register holds `N < fuel`, the
`sub $reg,1` loop body drives it to 0 in exactly `N` further cycles. -/
theorem nodeLoopConstantGo_countdown :
    ∀ (N : Nat), ∀ (fuel cycles : Nat), ∀ (rest : List Int), N < fuel →
      nodeLoopConstantGo (subConst 0 1) 0 1 fuel ((N : Int) :: rest) cycles =
        some ((0 : Int) :: rest, cycles + N) := by
  intro N
  induction N with
  | zero =>
      intro fuel cycles rest hfuel
      obtain ⟨f, rfl⟩ : ∃ f, fuel = f + 1 := ⟨fuel - 1, by omega⟩
      show nodeLoopConstantGo (subConst 0 1) 0 1 (f + 1) ((0 : Int) :: rest) cycles = _
      simp only [nodeLoopConstantGo, subConst, regGet, List.getD, List.get?_cons_zero,
        Option.getD_some, List.set_cons_zero, windowLess]
      norm_num
  | succ M ih =>
      intro fuel cycles rest hfuel
      obtain ⟨f, rfl⟩ : ∃ f, fuel = f + 1 := ⟨fuel - 1, by omega⟩
      have hM : M < f := by omega
      have hbody : subConst 0 1 ((↑(M + 1) : Int) :: rest) = (M : Int) :: rest := by
        simp only [subConst, regGet, List.getD, List.get?_cons_zero, Option.getD_some,
          List.set_cons_zero]
        push_cast
        ring_nf
      have hless : windowLess ((M : Int) :: rest) ((↑(M + 1) : Int) :: rest) 0 1 = true := by
        simp only [windowLess, regGet, List.getD, List.get?_cons_zero, Option.getD_some]
        have h1 : max (M : Int) 0 = (M : Int) := max_eq_left (by positivity)
        have h2 : max (↑(M + 1) : Int) 0 = (↑(M + 1) : Int) := max_eq_left (by positivity)
        rw [h1, h2]
        have h3 : (M : Int) < (↑(M + 1) : Int) := by exact_mod_cast Nat.lt_succ_self M
        simp [h3]
      show nodeLoopConstantGo (subConst 0 1) 0 1 (f + 1) ((↑(M + 1) : Int) :: rest) cycles = _
      simp only [nodeLoopConstantGo, hbody, hless, if_true]
      rw [ih f (cycles + 1) rest hM]
      have harith : cycles + 1 + M = cycles + (M + 1) := by omega
      rw [harith]

/-- Runaway lemma: while the monitored register holds `N ≥ fuel`, the
`sub $reg,1` loop body keeps the window strictly decreasing until the
cycle budget is exhausted, i.e. until the source panics. -/
theorem nodeLoopConstantGo_runaway :
    ∀ (fuel : Nat), ∀ (N : Nat), ∀ (cycles : Nat), ∀ (rest : List Int), fuel ≤ N →
      nodeLoopConstantGo (subConst 0 1) 0 1 fuel ((N : Int) :: rest) cycles = none := by
  intro fuel
  induction fuel with
  | zero => intro N cycles rest _; rfl
  | succ f ih =>
      intro N cycles rest hN
      obtain ⟨M, rfl⟩ : ∃ M, N = M + 1 := ⟨N - 1, by omega⟩
      have hbody : subConst 0 1 ((↑(M + 1) : Int) :: rest) = (M : Int) :: rest := by
        simp only [subConst, regGet, List.getD, List.get?_cons_zero, Option.getD_some,
          List.set_cons_zero]
        push_cast
        ring_nf
      have hless : windowLess ((M : Int) :: rest) ((↑(M + 1) : Int) :: rest) 0 1 = true := by
        simp only [windowLess, regGet, List.getD, List.get?_cons_zero, Option.getD_some]
        have h1 : max (M : Int) 0 = (M : Int) := max_eq_left (by positivity)
        have h2 : max (↑(M + 1) : Int) 0 = (↑(M + 1) : Int) := max_eq_left (by positivity)
        rw [h1, h2]
        have h3 : (M : Int) < (↑(M + 1) : Int) := by exact_mod_cast Nat.lt_succ_self M
        simp [h3]
      show nodeLoopConstantGo (subConst 0 1) 0 1 (f + 1) ((↑(M + 1) : Int) :: rest) cycles = none
      simp only [nodeLoopConstantGo, hbody, hless, if_true]
      exact ih M (cycles + 1) rest (by omega)

/-- When the window did not shrink, the loop exits at once, restoring the
snapshot taken before the body ran. -/
theorem nodeLoopConstantGo_exit (body : ProgState → ProgState) (reg rangeLength fuel : Nat)
    (state : ProgState) (cycles : Nat)
    (h : windowLess (body state) state reg rangeLength = false) :
    nodeLoopConstantGo body reg rangeLength (fuel + 1) state cycles = some (state, cycles) := by
  simp only [nodeLoopConstantGo, h, Bool.false_eq_true, if_false]

/-- C1 counterexample.  A loop whose monitored window never strictly
decreases (identity body) does **not** run to the 1000-iteration cap and
does **not** report any failure: it exits normally after the very first
body execution, restoring the snapshot, with zero completed cycles. -/
theorem nodeLoopConstant_identity_body_exits_immediately :
    windowLess [(5 : Int)] [(5 : Int)] 0 1 = false ∧
    nodeLoopConstantEval (fun s => s) 0 1 [(5 : Int)] = some ([(5 : Int)], 0) := by
  constructor
  · exact windowLess_self [(5 : Int)] 1 0
  · decide

/-- C1 (amended): for every loop body, register and window length, if the
monitored window never strictly decreases then `NodeLoopConstant::eval`
stops after the first body execution, restores the state from before that
iteration, and returns normally with zero completed cycles — it neither
reaches the iteration cap nor crashes nor hangs. -/
theorem nodeLoopConstant_neverDecreasing_stops_first_iteration
    (body : ProgState → ProgState) (reg rangeLength : Nat) (s : ProgState)
    (h : ∀ t, windowLess (body t) t reg rangeLength = false) :
    nodeLoopConstantEval body reg rangeLength s = some (s, 0) := by
  show nodeLoopConstantGo body reg rangeLength (1000 + 1) s 0 = some (s, 0)
  exact nodeLoopConstantGo_exit body reg rangeLength 1000 s 0 (h s)

/-- Witness for the amended C1 at a concrete input. -/
theorem nodeLoopConstant_neverDecreasing_witness :
    nodeLoopConstantEval (fun s => s) 0 1 [(7 : Int), (2 : Int)] = some ([(7 : Int), (2 : Int)], 0) :=
  nodeLoopConstant_neverDecreasing_stops_first_iteration (fun s => s) 0 1 [(7 : Int), (2 : Int)]
    (fun t => windowLess_self t 1 0)

/-- C3 (amended): a `lpb $0,1 / sub $0,1 / lpe` loop started with the
monitored register at `N ≤ 1000` terminates normally after exactly `N`
completed cycles, and the final state is the snapshot taken just before
the first non-decreasing iteration: the monitored register is 0 and all
other registers are untouched. -/
theorem nodeLoopConstant_countdown_terminates (N : Nat) (rest : List Int) (h : N ≤ 1000) :
    nodeLoopConstantEval (subConst 0 1) 0 1 ((N : Int) :: rest) = some ((0 : Int) :: rest, N) := by
  have := nodeLoopConstantGo_countdown N 1001 0 rest (by omega)
  simpa [nodeLoopConstantEval] using this

/-- Witness for C3: the spec's worked example, registers `[5,0,0,0]`,
terminates with `$0 == 0` after exactly 5 completed cycles. -/
theorem nodeLoopConstant_countdown_witness :
    nodeLoopConstantEval (subConst 0 1) 0 1 [(5 : Int), 0, 0, 0] = some ([(0 : Int), 0, 0, 0], 5) := by
  have h5 : ((5 : Nat) : Int) = (5 : Int) := by norm_num
  have := nodeLoopConstant_countdown_terminates 5 [0, 0, 0] (by omega)
  rw [h5] at this
  exact this

/-- C3 counterexample: started at `N = 1001` the same countdown loop does
not terminate after `N` iterations with the register at 0 — it exhausts
the 1000-cycle budget and the source panics (modelled as `none`). -/
theorem nodeLoopConstant_countdown_cap_panics :
    nodeLoopConstantEval (subConst 0 1) 0 1 [(1001 : Int)] = none := by
  have h : ((1001 : Nat) : Int) = (1001 : Int) := by norm_num
  have := nodeLoopConstantGo_runaway 1001 1001 0 [] (by omega)
  rw [h] at this
  exact this

/-! ## `NodeMoveAdvanced::eval`
(`src/rust_project/loda-rust-core/src/execute/node_move.rs`)

The source matches on the operand addressing modes and executes
`panic!("boom indirect source")` / `panic!("boom indirect target")` on the
`Indirect` arms (both marked `TODO: deal with indirect`).  The panic is
modelled as an explicit `panicked` result so the claim can be evaluated. -/

/-- Addressing mode of a register operand (`RegisterType`). -/
inductive RegisterType
  | direct
  | indirect
deriving DecidableEq, Repr

/-- A register index together with its addressing mode
(`RegisterIndexAndType`). -/
structure RegisterIndexAndType where
  registerIndex : Nat
  registerType : RegisterType
deriving DecidableEq, Repr

/-- Result of evaluating `NodeMoveAdvanced::eval`: either the updated
state or a process panic with the panic message of the source. -/
inductive MoveEvalResult
  | ok (state : ProgState)
  | panicked (message : String)
deriving DecidableEq, Repr

/-- `NodeMoveAdvanced::eval`: read the source operand, then write the
target operand; both `Indirect` arms panic in the source. -/
def nodeMoveAdvancedEval (target source : RegisterIndexAndType) (state : ProgState) :
    MoveEvalResult :=
  match source.registerType with
  | RegisterType.indirect => MoveEvalResult.panicked "boom indirect source"
  | RegisterType.direct =>
      let tmpValue := regGet state source.registerIndex
      match target.registerType with
      | RegisterType.indirect => MoveEvalResult.panicked "boom indirect target"
      | RegisterType.direct => MoveEvalResult.ok (state.set target.registerIndex tmpValue)

/-- C2: evaluating a Move whose source operand is Indirect aborts the
process with the panic `"boom indirect source"` instead of returning a
typed `UnsupportedOrInvalidAddressing` failure to the caller. -/
theorem nodeMoveAdvanced_indirect_source_panics :
    nodeMoveAdvancedEval ⟨0, RegisterType.direct⟩ ⟨1, RegisterType.indirect⟩ [(3 : Int), (4 : Int)] =
      MoveEvalResult.panicked "boom indirect source" := rfl

/-! ## Genome data model
(`src/rust_project/loda-rust-cli/src/mine/genome.rs`)

`GenomeItem` itself lives in `genome_item.rs`, which is not part of this
snapshot; its fields and accessors are modelled from the spec ("opcode,
target (register index + Direct/Indirect), source (register index or
constant + its type), an `enabled` flag, and a `mutation_locked` flag"). -/

/-- Opcode of one instruction (`InstructionId` of the parser). -/
inductive InstructionId
  | move
  | add
  | subtract
  | truncate
  | multiply
  | divide
  | divideIf
  | modulo
  | power
  | gcd
  | binomial
  | compare
  | min
  | max
  | loopBegin
  | loopEnd
  | clear
  | evalSequence
  | unofficialFunction
  | unofficialLoopBeginSubtract
deriving DecidableEq, Repr

/-- Type of a source parameter (`ParameterType`). -/
inductive ParameterType
  | constant
  | direct
  | indirect
deriving DecidableEq, Repr

/-- Modelled from the spec: one `GenomeItem` (`genome_item.rs`) — the
mutable analogue of one instruction, with typed target/source fields, an
`enabled` flag and a `mutation_locked` flag. -/
structure GenomeItem where
  instructionId : InstructionId
  targetType : RegisterType
  targetValue : Int
  sourceType : ParameterType
  sourceValue : Int
  enabled : Bool
  mutationLocked : Bool
deriving DecidableEq, Repr

/-- Modelled from the spec: `GenomeItem::new` builds a fresh, enabled,
unlocked row. -/
def GenomeItem.new (instructionId : InstructionId) (targetType : RegisterType)
    (targetValue : Int) (sourceType : ParameterType) (sourceValue : Int) : GenomeItem :=
  { instructionId := instructionId
    targetType := targetType
    targetValue := targetValue
    sourceType := sourceType
    sourceValue := sourceValue
    enabled := true
    mutationLocked := false }

/-- A `Genome`: the ordered rows plus the append-only mutation-message
log. -/
structure Genome where
  genomeVec : List GenomeItem
  messageVec : List String
deriving DecidableEq, Repr

/-! ### Randomness

Every mutation call takes a caller-seeded random source.  We model the
random source as a finite stream of draws; an exhausted stream keeps
yielding 0.  Each primitive (`gen_range`, `choose`, `choose_weighted`,
`choose_multiple`) consumes draws from the stream, and theorems quantify
over all streams. -/

/-- A deterministic random source: the stream of raw draws. -/
abbrev Rng := List Nat

/-- Draw the next raw value. -/
def rngNext : Rng → Nat × Rng
  | [] => (0, [])
  | x :: rest => (x, rest)

/-- `rng.gen_range(0..n)`: one draw reduced modulo `n`. -/
def genRange (n : Nat) (rng : Rng) : Nat × Rng :=
  let r := (rngNext rng).1
  let rng' := (rngNext rng).2
  (r % n, rng')

/-- `slice.choose(rng)` on a nonempty list of indexes (the callers check
emptiness first, mirroring the `.unwrap()` in the source). -/
def chooseIdx (l : List Nat) (rng : Rng) : Nat × Rng :=
  let r := (rngNext rng).1
  let rng' := (rngNext rng).2
  (l.getD (r % l.length) 0, rng')

/-- `slice.choose(rng)` on a nonempty list of register values. -/
def chooseInt (l : List Int) (rng : Rng) : Int × Rng :=
  let r := (rngNext rng).1
  let rng' := (rngNext rng).2
  (l.getD (r % l.length) 0, rng')

/-- `slice.choose_multiple(rng, 2)` on a list of indexes: two draws,
the second from the list with the first pick removed. -/
def chooseTwoIdx (l : List Nat) (rng : Rng) : Nat × Nat × Rng :=
  let r1 := (rngNext rng).1
  let rng1 := (rngNext rng).2
  let pos1 := r1 % l.length
  let first := l.getD pos1 0
  let rest := l.eraseIdx pos1
  let r2 := (rngNext rng1).1
  let rng2 := (rngNext rng1).2
  let second := rest.getD (r2 % rest.length) 0
  (first, second, rng2)

/-- `slice.choose_weighted(rng, |item| item.1)`: walk the cumulative
weights with one draw reduced modulo the total weight.  Entries of
weight 0 are never selected. -/
def chooseWeightedGo {α : Type} : List (α × Nat) → Nat → Option α
  | [], _ => none
  | (a, w) :: rest, k => if k < w then some a else chooseWeightedGo rest (k - w)

/-- Total weight of a weighted list. -/
def totalWeight {α : Type} (l : List (α × Nat)) : Nat :=
  (l.map (fun p => p.2)).sum

/-- Weighted choice with a default for the (unreachable, since the fixed
total weight is positive) empty case. -/
def chooseWeightedD {α : Type} (l : List (α × Nat)) (d : α) (rng : Rng) : α × Rng :=
  let r := (rngNext rng).1
  let rng' := (rngNext rng).2
  ((chooseWeightedGo l (r % totalWeight l)).getD d, rng')

/-! ### The mutation context

`GenomeMutateContext` (`genome_mutate_context.rs`) is not part of this
snapshot.  Modelled from the spec: read-only statistical tables, each of
which may be absent ("each returns unavailable when its backing table was
never loaded"); a loaded table is a pure function of its query and of one
raw random draw. -/

/-- A word of the line-level n-gram model (`LineValue` of
`suggest_line.rs`). -/
inductive LineValue
  | programStart
  | programStop
  | line (content : String)
deriving DecidableEq, Repr

/-- A word of the source-operand n-gram model (`SourceValue` of
`suggest_source.rs`). -/
inductive SourceValue
  | programStart
  | programStop
  | noneValue
  | constant (value : Int)
  | direct (value : Int)
  | indirect (value : Int)
deriving DecidableEq, Repr

/-- A word of the target-operand n-gram model (`TargetValue` of
`suggest_target.rs`). -/
inductive TargetValue
  | programStart
  | programStop
  | noneValue
  | direct (value : Int)
  | indirect (value : Int)
deriving DecidableEq, Repr

/-- Popularity tier used when retargeting a `seq` call
(`MutateEvalSequenceCategory`). -/
inductive MutateEvalSequenceCategory
  | weightedByPopularity
  | mostPopular
  | mediumPopular
  | leastPopular
  | recent
  | programThatUsesIndirectMemoryAccess
deriving DecidableEq, Repr

/-- Modelled from the spec: the read-only corpus-statistics tables.
`none` at the outer `Option` models a table that was never loaded. -/
structure GenomeMutateContext where
  chooseConstantTable : Option (InstructionId → Nat → Option Int)
  suggestInstructionTable :
    Option (Option InstructionId → Option InstructionId → Nat → Option InstructionId)
  suggestLineTable : Option (LineValue → LineValue → Nat → Option LineValue)
  suggestSourceTable : Option (SourceValue → SourceValue → Nat → Option SourceValue)
  suggestTargetTable : Option (TargetValue → TargetValue → Nat → Option TargetValue)
  chooseProgramTable : MutateEvalSequenceCategory → Nat → Option Int

/-- `has_histogram_instruction_constant`. -/
def GenomeMutateContext.hasHistogramInstructionConstant (c : GenomeMutateContext) : Bool :=
  c.chooseConstantTable.isSome

/-- `has_suggest_instruction`. -/
def GenomeMutateContext.hasSuggestInstruction (c : GenomeMutateContext) : Bool :=
  c.suggestInstructionTable.isSome

/-- `has_suggest_line`. -/
def GenomeMutateContext.hasSuggestLine (c : GenomeMutateContext) : Bool :=
  c.suggestLineTable.isSome

/-- `has_suggest_source`. -/
def GenomeMutateContext.hasSuggestSource (c : GenomeMutateContext) : Bool :=
  c.suggestSourceTable.isSome

/-- `has_suggest_target`. -/
def GenomeMutateContext.hasSuggestTarget (c : GenomeMutateContext) : Bool :=
  c.suggestTargetTable.isSome

/-- `choose_constant_with_histogram(rng, instruction_id)`. -/
def GenomeMutateContext.chooseConstantWithHistogram (c : GenomeMutateContext) (rng : Rng)
    (instructionId : InstructionId) : Option Int × Rng :=
  match c.chooseConstantTable with
  | none => (none, rng)
  | some f =>
      let r := (rngNext rng).1
      let rng' := (rngNext rng).2
      (f instructionId r, rng')

/-- `suggest_instruction(rng, prev, next)`. -/
def GenomeMutateContext.suggestInstructionQuery (c : GenomeMutateContext) (rng : Rng)
    (prev next : Option InstructionId) : Option InstructionId × Rng :=
  match c.suggestInstructionTable with
  | none => (none, rng)
  | some f =>
      let r := (rngNext rng).1
      let rng' := (rngNext rng).2
      (f prev next r, rng')

/-- `suggest_line(rng, prev, next)`. -/
def GenomeMutateContext.suggestLineQuery (c : GenomeMutateContext) (rng : Rng)
    (prev next : LineValue) : Option LineValue × Rng :=
  match c.suggestLineTable with
  | none => (none, rng)
  | some f =>
      let r := (rngNext rng).1
      let rng' := (rngNext rng).2
      (f prev next r, rng')

/-- `suggest_source(rng, prev, next)`. -/
def GenomeMutateContext.suggestSourceQuery (c : GenomeMutateContext) (rng : Rng)
    (prev next : SourceValue) : Option SourceValue × Rng :=
  match c.suggestSourceTable with
  | none => (none, rng)
  | some f =>
      let r := (rngNext rng).1
      let rng' := (rngNext rng).2
      (f prev next r, rng')

/-- `suggest_target(rng, prev, next)`. -/
def GenomeMutateContext.suggestTargetQuery (c : GenomeMutateContext) (rng : Rng)
    (prev next : TargetValue) : Option TargetValue × Rng :=
  match c.suggestTargetTable with
  | none => (none, rng)
  | some f =>
      let r := (rngNext rng).1
      let rng' := (rngNext rng).2
      (f prev next r, rng')

/-- Modelled from the spec: the external collaborators used by the
line-level operators — the assembly-text parser (`parse_program` followed
by `first` and `to_genome_item`, collapsed into one fallible step) and the
row serializer `to_line_string`. -/
structure Externals where
  parseFirstLine : String → Option GenomeItem
  toLineString : GenomeItem → String

/-! ### Mutation operators

Each operator mirrors one `&mut self` method of `Genome` in `genome.rs`.
The methods only touch `self.genome_vec`, so the embeddings transform the
row list and thread the random stream, returning the success flag of the
source.  Machine-integer bounds (`i32::MAX` / `i32::MIN`) appear as the
explicit guards of the source. -/

/-- `i32::MAX`. -/
def i32Max : Int := 2147483647

/-- `i32::MIN`. -/
def i32Min : Int := -2147483648

/-- The row indexes passing an eligibility filter, in order (the
`enumerate`/`continue` loops of the source). -/
def eligibleIndexes (gv : List GenomeItem) (p : GenomeItem → Bool) : List Nat :=
  (List.range gv.length).filter fun i =>
    match gv.get? i with
    | some item => p item
    | none => false

/-- Eligibility filter of `increment_source_value_where_type_is_constant`
(and its decrement / histogram-replace siblings): unlocked rows with a
constant source whose opcode is none of `seq`, `lpb`, `lpe`, unofficial
function, `lps`. -/
def constantSourceEligible (item : GenomeItem) : Bool :=
  !item.mutationLocked &&
  item.sourceType == ParameterType.constant &&
  (match item.instructionId with
   | InstructionId.evalSequence | InstructionId.loopBegin | InstructionId.loopEnd
   | InstructionId.unofficialFunction | InstructionId.unofficialLoopBeginSubtract => false
   | _ => true)

/-- `Genome::increment_source_value_where_type_is_constant`. -/
def incrementSourceValueWhereTypeIsConstant (gv : List GenomeItem) (rng : Rng) :
    Bool × List GenomeItem × Rng :=
  let indexes := eligibleIndexes gv constantSourceEligible
  if indexes.isEmpty then (false, gv, rng)
  else
    let index := (chooseIdx indexes rng).1
    let rng1 := (chooseIdx indexes rng).2
    match gv.get? index with
    | none => (false, gv, rng1)
    | some item =>
        let value := item.sourceValue
        if i32Max ≤ value then (false, gv, rng1)
        else
          let newValue := value + 1
          if item.instructionId == InstructionId.divide && newValue == 0 then (false, gv, rng1)
          else if item.instructionId == InstructionId.divideIf && newValue == 0 then (false, gv, rng1)
          else if item.instructionId == InstructionId.modulo && newValue == 0 then (false, gv, rng1)
          else (true, gv.set index { item with sourceValue := newValue }, rng1)

/-- `Genome::decrement_source_value_where_type_is_constant`. -/
def decrementSourceValueWhereTypeIsConstant (gv : List GenomeItem) (rng : Rng) :
    Bool × List GenomeItem × Rng :=
  let indexes := eligibleIndexes gv constantSourceEligible
  if indexes.isEmpty then (false, gv, rng)
  else
    let index := (chooseIdx indexes rng).1
    let rng1 := (chooseIdx indexes rng).2
    match gv.get? index with
    | none => (false, gv, rng1)
    | some item =>
        let value := item.sourceValue
        if value ≤ i32Min then (false, gv, rng1)
        else
          let newValue := value - 1
          if item.instructionId == InstructionId.divide && newValue == 0 then (false, gv, rng1)
          else if item.instructionId == InstructionId.divideIf && newValue == 0 then (false, gv, rng1)
          else if item.instructionId == InstructionId.modulo && newValue == 0 then (false, gv, rng1)
          else (true, gv.set index { item with sourceValue := newValue }, rng1)

/-- The retry loop of `replace_source_constant_with_histogram`: up to
`MUTATE_RETRIES` draws; a missing histogram entry stops at once, a draw
equal to the original retries. -/
def replaceSourceConstantTries (ctx : GenomeMutateContext) (item : GenomeItem) :
    Nat → Rng → Option Int × Rng
  | 0, rng => (none, rng)
  | n + 1, rng =>
      let picked := (ctx.chooseConstantWithHistogram rng item.instructionId).1
      let rng' := (ctx.chooseConstantWithHistogram rng item.instructionId).2
      match picked with
      | none => (none, rng')
      | some v =>
          if v == item.sourceValue then replaceSourceConstantTries ctx item n rng'
          else (some v, rng')

/-- `Genome::replace_source_constant_with_histogram`. -/
def replaceSourceConstantWithHistogram (ctx : GenomeMutateContext) (gv : List GenomeItem)
    (rng : Rng) : Bool × List GenomeItem × Rng :=
  if !ctx.hasHistogramInstructionConstant then (false, gv, rng)
  else
    let indexes := eligibleIndexes gv constantSourceEligible
    if indexes.isEmpty then (false, gv, rng)
    else
      let index := (chooseIdx indexes rng).1
      let rng1 := (chooseIdx indexes rng).2
      match gv.get? index with
      | none => (false, gv, rng1)
      | some item =>
          let picked := (replaceSourceConstantTries ctx item 3 rng1).1
          let rng2 := (replaceSourceConstantTries ctx item 3 rng1).2
          match picked with
          | none => (false, gv, rng2)
          | some v => (true, gv.set index { item with sourceValue := v }, rng2)

/-- Eligibility filter of the direct-source increment/decrement and
histogram-replace operators: unlocked rows whose opcode is none of `lpb`,
`lpe`, unofficial function, `lps` (a direct `seq` source is allowed
here). -/
def nonLoopEligible (item : GenomeItem) : Bool :=
  !item.mutationLocked &&
  (match item.instructionId with
   | InstructionId.loopBegin | InstructionId.loopEnd
   | InstructionId.unofficialFunction | InstructionId.unofficialLoopBeginSubtract => false
   | _ => true)

/-- `Genome::increment_source_value_where_type_is_direct`. -/
def incrementSourceValueWhereTypeIsDirect (gv : List GenomeItem) (rng : Rng) :
    Bool × List GenomeItem × Rng :=
  let indexes := eligibleIndexes gv
    (fun item => item.sourceType == ParameterType.direct && nonLoopEligible item)
  if indexes.isEmpty then (false, gv, rng)
  else
    let index := (chooseIdx indexes rng).1
    let rng1 := (chooseIdx indexes rng).2
    match gv.get? index with
    | none => (false, gv, rng1)
    | some item =>
        let value := item.sourceValue
        if i32Max ≤ value then (false, gv, rng1)
        else (true, gv.set index { item with sourceValue := value + 1 }, rng1)

/-- `Genome::decrement_source_value_where_type_is_direct`. -/
def decrementSourceValueWhereTypeIsDirect (gv : List GenomeItem) (rng : Rng) :
    Bool × List GenomeItem × Rng :=
  let indexes := eligibleIndexes gv
    (fun item => item.sourceType == ParameterType.direct && nonLoopEligible item &&
      decide (0 < item.sourceValue))
  if indexes.isEmpty then (false, gv, rng)
  else
    let index := (chooseIdx indexes rng).1
    let rng1 := (chooseIdx indexes rng).2
    match gv.get? index with
    | none => (false, gv, rng1)
    | some item =>
        let value := item.sourceValue
        if value ≤ i32Min then (false, gv, rng1)
        else (true, gv.set index { item with sourceValue := value - 1 }, rng1)

/-- `Genome::get_source_value`. -/
def getSourceValue (item : GenomeItem) : SourceValue :=
  if item.instructionId == InstructionId.loopEnd then SourceValue.noneValue
  else
    match item.sourceType with
    | ParameterType.constant => SourceValue.constant item.sourceValue
    | ParameterType.direct => SourceValue.direct item.sourceValue
    | ParameterType.indirect => SourceValue.indirect item.sourceValue

/-- The retry loop of `replace_source_with_histogram`. -/
def replaceSourceTries (ctx : GenomeMutateContext) (prev next : SourceValue)
    (item : GenomeItem) : Nat → Rng → Option (Int × ParameterType) × Rng
  | 0, rng => (none, rng)
  | n + 1, rng =>
      let suggested := (ctx.suggestSourceQuery rng prev next).1
      let rng' := (ctx.suggestSourceQuery rng prev next).2
      match suggested with
      | some (SourceValue.constant v) =>
          if v == item.sourceValue && ParameterType.constant == item.sourceType then
            replaceSourceTries ctx prev next item n rng'
          else (some (v, ParameterType.constant), rng')
      | some (SourceValue.direct v) =>
          if v < 0 then replaceSourceTries ctx prev next item n rng'
          else if v == item.sourceValue && ParameterType.direct == item.sourceType then
            replaceSourceTries ctx prev next item n rng'
          else (some (v, ParameterType.direct), rng')
      | some (SourceValue.indirect v) =>
          if v < 0 then replaceSourceTries ctx prev next item n rng'
          else if v == item.sourceValue && ParameterType.indirect == item.sourceType then
            replaceSourceTries ctx prev next item n rng'
          else (some (v, ParameterType.indirect), rng')
      | _ => replaceSourceTries ctx prev next item n rng'

/-- Eligibility filter of `replace_source_with_histogram` and
`mutate_set_source_to_*`-style operators: unlocked rows whose opcode is
none of `seq`, `lpb`, `lpe`, unofficial function, `lps`. -/
def nonSpecialEligible (item : GenomeItem) : Bool :=
  !item.mutationLocked &&
  (match item.instructionId with
   | InstructionId.evalSequence | InstructionId.loopBegin | InstructionId.loopEnd
   | InstructionId.unofficialFunction | InstructionId.unofficialLoopBeginSubtract => false
   | _ => true)

/-- `Genome::replace_source_with_histogram`. -/
def replaceSourceWithHistogram (ctx : GenomeMutateContext) (gv : List GenomeItem) (rng : Rng) :
    Bool × List GenomeItem × Rng :=
  if !ctx.hasSuggestSource then (false, gv, rng)
  else
    let indexes := eligibleIndexes gv nonSpecialEligible
    if indexes.isEmpty then (false, gv, rng)
    else
      let index1 := (chooseIdx indexes rng).1
      let rng1 := (chooseIdx indexes rng).2
      let prevWord :=
        match index1 with
        | 0 => SourceValue.programStart
        | i + 1 =>
            match gv.get? i with
            | some item => getSourceValue item
            | none => SourceValue.programStart
      let nextWord :=
        match gv.get? (index1 + 1) with
        | some item => getSourceValue item
        | none => SourceValue.programStop
      if prevWord == SourceValue.programStart && nextWord == SourceValue.programStop then
        (false, gv, rng1)
      else
        match gv.get? index1 with
        | none => (false, gv, rng1)
        | some item =>
            let picked := (replaceSourceTries ctx prevWord nextWord item 3 rng1).1
            let rng2 := (replaceSourceTries ctx prevWord nextWord item 3 rng1).2
            match picked with
            | none => (false, gv, rng2)
            | some (v, t) =>
                (true, gv.set index1 { item with sourceValue := v, sourceType := t }, rng2)

/-- Eligibility filter of the line-level operators and `copy_line`:
opcode none of `lpb`, `lpe`, `lps` (plus the lock check where the source
has one). -/
def nonLoopInstruction (item : GenomeItem) : Bool :=
  match item.instructionId with
  | InstructionId.loopBegin | InstructionId.loopEnd
  | InstructionId.unofficialLoopBeginSubtract => false
  | _ => true

/-- `Genome::replace_line_with_histogram`. -/
def replaceLineWithHistogram (ext : Externals) (ctx : GenomeMutateContext)
    (gv : List GenomeItem) (rng : Rng) : Bool × List GenomeItem × Rng :=
  if !ctx.hasSuggestLine then (false, gv, rng)
  else
    let indexes := eligibleIndexes gv (fun item => !item.mutationLocked && nonLoopInstruction item)
    if indexes.isEmpty then (false, gv, rng)
    else
      let index1 := (chooseIdx indexes rng).1
      let rng1 := (chooseIdx indexes rng).2
      let prevWord :=
        match index1 with
        | 0 => LineValue.programStart
        | i + 1 =>
            match gv.get? i with
            | some item => LineValue.line (ext.toLineString item)
            | none => LineValue.programStart
      let nextWord :=
        match gv.get? (index1 + 1) with
        | some item => LineValue.line (ext.toLineString item)
        | none => LineValue.programStop
      if prevWord == LineValue.programStart && nextWord == LineValue.programStop then
        (false, gv, rng1)
      else
        let suggested := (ctx.suggestLineQuery rng1 prevWord nextWord).1
        let rng2 := (ctx.suggestLineQuery rng1 prevWord nextWord).2
        match suggested with
        | some (LineValue.line content) =>
            (match ext.parseFirstLine content with
             | none => (false, gv, rng2)
             | some parsedItem =>
                 if nonLoopInstruction parsedItem then (true, gv.set index1 parsedItem, rng2)
                 else (false, gv, rng2))
        | _ => (false, gv, rng2)

/-- `Genome::insert_line_with_histogram`. -/
def insertLineWithHistogram (ext : Externals) (ctx : GenomeMutateContext)
    (gv : List GenomeItem) (rng : Rng) : Bool × List GenomeItem × Rng :=
  if !ctx.hasSuggestLine then (false, gv, rng)
  else if gv.length < 1 then (false, gv, rng)
  else
    let index1 := (genRange gv.length rng).1
    let rng1 := (genRange gv.length rng).2
    let prevWord :=
      match index1 with
      | 0 => LineValue.programStart
      | i + 1 =>
          match gv.get? i with
          | some item => LineValue.line (ext.toLineString item)
          | none => LineValue.programStart
    let nextWord :=
      match gv.get? index1 with
      | some item => LineValue.line (ext.toLineString item)
      | none => LineValue.programStop
    if prevWord == LineValue.programStart && nextWord == LineValue.programStop then
      (false, gv, rng1)
    else
      let suggested := (ctx.suggestLineQuery rng1 prevWord nextWord).1
      let rng2 := (ctx.suggestLineQuery rng1 prevWord nextWord).2
      match suggested with
      | some (LineValue.line content) =>
          (match ext.parseFirstLine content with
           | none => (false, gv, rng2)
           | some parsedItem =>
               if nonLoopInstruction parsedItem then
                 (true, gv.take index1 ++ parsedItem :: gv.drop index1, rng2)
               else (false, gv, rng2))
      | _ => (false, gv, rng2)

/-- `Genome::copy_line`.  Note that the source has no lock check here. -/
def copyLine (gv : List GenomeItem) (rng : Rng) : Bool × List GenomeItem × Rng :=
  let indexes := eligibleIndexes gv nonLoopInstruction
  if indexes.isEmpty then (false, gv, rng)
  else
    let copyFromIndex := (chooseIdx indexes rng).1
    let rng1 := (chooseIdx indexes rng).2
    match gv.get? copyFromIndex with
    | none => (false, gv, rng1)
    | some item =>
        if gv.length < 1 then (false, gv, rng1)
        else
          let insertIndex := (genRange gv.length rng1).1
          let rng2 := (genRange gv.length rng1).2
          (true, gv.take insertIndex ++ item :: gv.drop insertIndex, rng2)

/-- Eligibility filter of `increment_target_value_where_type_is_direct`:
unlocked rows with a direct target whose opcode is not `lpe`. -/
def directTargetEligible (item : GenomeItem) : Bool :=
  !item.mutationLocked &&
  item.targetType == RegisterType.direct &&
  item.instructionId != InstructionId.loopEnd

/-- `Genome::increment_target_value_where_type_is_direct`. -/
def incrementTargetValueWhereTypeIsDirect (gv : List GenomeItem) (rng : Rng) :
    Bool × List GenomeItem × Rng :=
  let indexes := eligibleIndexes gv directTargetEligible
  if indexes.isEmpty then (false, gv, rng)
  else
    let index := (chooseIdx indexes rng).1
    let rng1 := (chooseIdx indexes rng).2
    match gv.get? index with
    | none => (false, gv, rng1)
    | some item =>
        let value := item.targetValue
        if i32Max ≤ value then (false, gv, rng1)
        else (true, gv.set index { item with targetValue := value + 1 }, rng1)

/-- `Genome::decrement_target_value_where_type_is_direct`. -/
def decrementTargetValueWhereTypeIsDirect (gv : List GenomeItem) (rng : Rng) :
    Bool × List GenomeItem × Rng :=
  let indexes := eligibleIndexes gv
    (fun item => directTargetEligible item && decide (0 < item.targetValue))
  if indexes.isEmpty then (false, gv, rng)
  else
    let index := (chooseIdx indexes rng).1
    let rng1 := (chooseIdx indexes rng).2
    match gv.get? index with
    | none => (false, gv, rng1)
    | some item =>
        let value := item.targetValue
        if value ≤ i32Min then (false, gv, rng1)
        else (true, gv.set index { item with targetValue := value - 1 }, rng1)

/-- `Genome::get_target_value`. -/
def getTargetValue (item : GenomeItem) : TargetValue :=
  if item.instructionId == InstructionId.loopEnd then TargetValue.noneValue
  else
    match item.targetType with
    | RegisterType.direct => TargetValue.direct item.targetValue
    | RegisterType.indirect => TargetValue.indirect item.targetValue

/-- The retry loop of `replace_target_with_histogram`. -/
def replaceTargetTries (ctx : GenomeMutateContext) (prev next : TargetValue)
    (item : GenomeItem) : Nat → Rng → Option (Int × RegisterType) × Rng
  | 0, rng => (none, rng)
  | n + 1, rng =>
      let suggested := (ctx.suggestTargetQuery rng prev next).1
      let rng' := (ctx.suggestTargetQuery rng prev next).2
      match suggested with
      | some (TargetValue.direct v) =>
          if v < 0 then replaceTargetTries ctx prev next item n rng'
          else if v == item.targetValue && RegisterType.direct == item.targetType then
            replaceTargetTries ctx prev next item n rng'
          else (some (v, RegisterType.direct), rng')
      | some (TargetValue.indirect v) =>
          if v < 0 then replaceTargetTries ctx prev next item n rng'
          else if v == item.targetValue && RegisterType.indirect == item.targetType then
            replaceTargetTries ctx prev next item n rng'
          else (some (v, RegisterType.indirect), rng')
      | _ => replaceTargetTries ctx prev next item n rng'

/-- `Genome::replace_target_with_histogram`.  The row is drawn from the
whole genome (`gen_range`), with lock and `lpe` checks afterwards. -/
def replaceTargetWithHistogram (ctx : GenomeMutateContext) (gv : List GenomeItem) (rng : Rng) :
    Bool × List GenomeItem × Rng :=
  if !ctx.hasSuggestTarget then (false, gv, rng)
  else if gv.length < 1 then (false, gv, rng)
  else
    let index1 := (genRange gv.length rng).1
    let rng1 := (genRange gv.length rng).2
    let prevWord :=
      match index1 with
      | 0 => TargetValue.programStart
      | i + 1 =>
          match gv.get? i with
          | some item => getTargetValue item
          | none => TargetValue.programStart
    let nextWord :=
      match gv.get? (index1 + 1) with
      | some item => getTargetValue item
      | none => TargetValue.programStop
    match gv.get? index1 with
    | none => (false, gv, rng1)
    | some item =>
        if item.mutationLocked then (false, gv, rng1)
        else if item.instructionId == InstructionId.loopEnd then (false, gv, rng1)
        else
          let picked := (replaceTargetTries ctx prevWord nextWord item 3 rng1).1
          let rng2 := (replaceTargetTries ctx prevWord nextWord item 3 rng1).2
          match picked with
          | none => (false, gv, rng2)
          | some (v, t) =>
              (true, gv.set index1 { item with targetValue := v, targetType := t }, rng2)

/-- Modelled from the spec: `GenomeItem::set_instruction`
(`genome_item.rs`) refuses instructions that need special attention to
the source value (`lpb`, `lpe`, `seq`, unofficial ones) and otherwise
replaces the opcode. -/
def GenomeItem.setInstruction (item : GenomeItem) (instructionId : InstructionId) :
    Bool × GenomeItem :=
  match instructionId with
  | InstructionId.loopBegin | InstructionId.loopEnd | InstructionId.evalSequence
  | InstructionId.unofficialFunction | InstructionId.unofficialLoopBeginSubtract =>
      (false, item)
  | _ => (true, { item with instructionId := instructionId })

/-- The retry loop of `replace_instruction_with_histogram`; a missing
suggestion returns failure at once, a suggestion equal to the original or
rejected by `set_instruction` retries. -/
def replaceInstructionTries (ctx : GenomeMutateContext) (prev next : Option InstructionId)
    (item : GenomeItem) : Nat → Rng → Option GenomeItem × Rng
  | 0, rng => (none, rng)
  | n + 1, rng =>
      let suggested := (ctx.suggestInstructionQuery rng prev next).1
      let rng' := (ctx.suggestInstructionQuery rng prev next).2
      match suggested with
      | none => (none, rng')
      | some suggestedId =>
          if item.instructionId == suggestedId then
            replaceInstructionTries ctx prev next item n rng'
          else
            let ok := (item.setInstruction suggestedId).1
            let item' := (item.setInstruction suggestedId).2
            if ok then (some item', rng')
            else replaceInstructionTries ctx prev next item n rng'

/-- `Genome::replace_instruction_with_histogram`. -/
def replaceInstructionWithHistogram (ctx : GenomeMutateContext) (gv : List GenomeItem)
    (rng : Rng) : Bool × List GenomeItem × Rng :=
  if !ctx.hasSuggestInstruction then (false, gv, rng)
  else if gv.length < 1 then (false, gv, rng)
  else
    let index1 := (genRange gv.length rng).1
    let rng1 := (genRange gv.length rng).2
    let prevInstruction :=
      match index1 with
      | 0 => (none : Option InstructionId)
      | i + 1 =>
          match gv.get? i with
          | some item => some item.instructionId
          | none => none
    let nextInstruction :=
      match gv.get? (index1 + 1) with
      | some item => some item.instructionId
      | none => none
    match gv.get? index1 with
    | none => (false, gv, rng1)
    | some item =>
        if item.mutationLocked then (false, gv, rng1)
        else
          let picked := (replaceInstructionTries ctx prevInstruction nextInstruction item 3 rng1).1
          let rng2 := (replaceInstructionTries ctx prevInstruction nextInstruction item 3 rng1).2
          match picked with
          | none => (false, gv, rng2)
          | some item' => (true, gv.set index1 item', rng2)

/-- `Genome::insert_instruction_with_constant`. -/
def insertInstructionWithConstant (ctx : GenomeMutateContext) (gv : List GenomeItem)
    (rng : Rng) : Bool × List GenomeItem × Rng :=
  if !ctx.hasHistogramInstructionConstant then (false, gv, rng)
  else if !ctx.hasSuggestInstruction then (false, gv, rng)
  else if !ctx.hasSuggestTarget then (false, gv, rng)
  else if gv.length < 1 then (false, gv, rng)
  else
    let index1 := (genRange gv.length rng).1
    let rng1 := (genRange gv.length rng).2
    let prevInstruction :=
      match index1 with
      | 0 => (none : Option InstructionId)
      | i + 1 =>
          match gv.get? i with
          | some item => some item.instructionId
          | none => none
    let prevTarget :=
      match index1 with
      | 0 => TargetValue.programStart
      | i + 1 =>
          match gv.get? i with
          | some item => getTargetValue item
          | none => TargetValue.programStart
    let nextInstruction :=
      match gv.get? index1 with
      | some item => some item.instructionId
      | none => none
    let nextTarget :=
      match gv.get? index1 with
      | some item => getTargetValue item
      | none => TargetValue.programStop
    let suggestedId := (ctx.suggestInstructionQuery rng1 prevInstruction nextInstruction).1
    let rng2 := (ctx.suggestInstructionQuery rng1 prevInstruction nextInstruction).2
    match suggestedId with
    | none => (false, gv, rng2)
    | some instructionId =>
        let constantPick := (ctx.chooseConstantWithHistogram rng2 instructionId).1
        let rng3 := (ctx.chooseConstantWithHistogram rng2 instructionId).2
        let sourceValue := constantPick.getD 0
        let targetPick := (ctx.suggestTargetQuery rng3 prevTarget nextTarget).1
        let rng4 := (ctx.suggestTargetQuery rng3 prevTarget nextTarget).2
        let targetDraw : Int × Rng :=
          match targetPick with
          | some (TargetValue.direct v) => (v, rng4)
          | _ => (((genRange 5 rng4).1 : Int), (genRange 5 rng4).2)
        let targetValue := targetDraw.1
        let rng5 := targetDraw.2
        let item := GenomeItem.new instructionId RegisterType.direct targetValue
          ParameterType.constant sourceValue
        (true, gv.take index1 ++ item :: gv.drop index1, rng5)

/-- `Genome::mutate_set_source_to_constant`. -/
def mutateSetSourceToConstant (ctx : GenomeMutateContext) (gv : List GenomeItem) (rng : Rng) :
    Bool × List GenomeItem × Rng :=
  let indexes := eligibleIndexes gv
    (fun item => item.sourceType != ParameterType.constant && nonSpecialEligible item)
  if indexes.isEmpty then (false, gv, rng)
  else
    let index := (chooseIdx indexes rng).1
    let rng1 := (chooseIdx indexes rng).2
    match gv.get? index with
    | none => (false, gv, rng1)
    | some item =>
        let picked := (ctx.chooseConstantWithHistogram rng1 item.instructionId).1
        let rng2 := (ctx.chooseConstantWithHistogram rng1 item.instructionId).2
        match picked with
        | none => (false, gv, rng2)
        | some v =>
            (true,
             gv.set index { item with sourceType := ParameterType.constant, sourceValue := v },
             rng2)

/-- `Genome::mutate_set_source_to_direct`. -/
def mutateSetSourceToDirect (gv : List GenomeItem) (rng : Rng) :
    Bool × List GenomeItem × Rng :=
  let indexes := eligibleIndexes gv
    (fun item => item.sourceType != ParameterType.direct && nonSpecialEligible item)
  if indexes.isEmpty then (false, gv, rng)
  else
    let theIndex := (chooseIdx indexes rng).1
    let rng1 := (chooseIdx indexes rng).2
    let aliveRegisters := (gv.take theIndex).map (fun item => item.targetValue)
    if aliveRegisters.isEmpty then (false, gv, rng1)
    else
      let theRegister := (chooseInt aliveRegisters rng1).1
      let rng2 := (chooseInt aliveRegisters rng1).2
      match gv.get? theIndex with
      | none => (false, gv, rng2)
      | some item =>
          (true,
           gv.set theIndex
             { item with sourceType := ParameterType.direct, sourceValue := theRegister },
           rng2)

/-- `Genome::mutate_disable_loop`. -/
def mutateDisableLoop (gv : List GenomeItem) (rng : Rng) : Bool × List GenomeItem × Rng :=
  let indexes := eligibleIndexes gv
    (fun item => !item.mutationLocked && item.instructionId == InstructionId.loopBegin)
  if indexes.isEmpty then (false, gv, rng)
  else
    let index := (chooseIdx indexes rng).1
    let rng1 := (chooseIdx indexes rng).2
    match gv.get? index with
    | none => (false, gv, rng1)
    | some item =>
        (true,
         gv.set index { item with sourceValue := 0, sourceType := ParameterType.constant },
         rng1)

/-- Modelled from the spec: `GenomeItem::mutate_swap_source_target_value`
(`genome_item.rs`) swaps the target and source values, reporting failure
(no change) when the two values are already equal. -/
def GenomeItem.mutateSwapSourceTargetValue (item : GenomeItem) : Bool × GenomeItem :=
  if item.targetValue == item.sourceValue then (false, item)
  else (true, { item with targetValue := item.sourceValue, sourceValue := item.targetValue })

/-- The retry loop of `mutate_swap_registers`: each attempt draws a fresh
row. -/
def mutateSwapRegistersTries (indexes : List Nat) (gv : List GenomeItem) :
    Nat → Rng → Option (Nat × GenomeItem) × Rng
  | 0, rng => (none, rng)
  | n + 1, rng =>
      let index := (chooseIdx indexes rng).1
      let rng' := (chooseIdx indexes rng).2
      match gv.get? index with
      | none => mutateSwapRegistersTries indexes gv n rng'
      | some item =>
          let ok := (item.mutateSwapSourceTargetValue).1
          let item' := (item.mutateSwapSourceTargetValue).2
          if ok then (some (index, item'), rng')
          else mutateSwapRegistersTries indexes gv n rng'

/-- `Genome::mutate_swap_registers`. -/
def mutateSwapRegisters (gv : List GenomeItem) (rng : Rng) : Bool × List GenomeItem × Rng :=
  let indexes := eligibleIndexes gv
    (fun item => !item.mutationLocked && item.targetType == RegisterType.direct &&
      item.sourceType == ParameterType.direct)
  if indexes.isEmpty then (false, gv, rng)
  else
    let picked := (mutateSwapRegistersTries indexes gv 3 rng).1
    let rng1 := (mutateSwapRegistersTries indexes gv 3 rng).2
    match picked with
    | none => (false, gv, rng1)
    | some (index, item') => (true, gv.set index item', rng1)

/-- `Genome::mutate_enabled`. -/
def mutateEnabled (gv : List GenomeItem) (rng : Rng) : Bool × List GenomeItem × Rng :=
  let indexes := eligibleIndexes gv
    (fun item => !item.mutationLocked && nonLoopInstruction item &&
      item.targetType != RegisterType.indirect && item.sourceType != ParameterType.indirect)
  if indexes.isEmpty then (false, gv, rng)
  else
    let index := (chooseIdx indexes rng).1
    let rng1 := (chooseIdx indexes rng).2
    match gv.get? index with
    | none => (false, gv, rng1)
    | some item => (true, gv.set index { item with enabled := !item.enabled }, rng1)

/-- Swap two positions of a row list (`Vec::swap`). -/
def listSwap (gv : List GenomeItem) (i j : Nat) : List GenomeItem :=
  match gv.get? i, gv.get? j with
  | some a, some b => (gv.set i b).set j a
  | _, _ => gv

/-- `Genome::mutate_swap_rows`. -/
def mutateSwapRows (gv : List GenomeItem) (rng : Rng) : Bool × List GenomeItem × Rng :=
  let indexes := eligibleIndexes gv
    (fun item => !item.mutationLocked && nonLoopInstruction item)
  if indexes.length < 2 then (false, gv, rng)
  else
    let index0 := (chooseTwoIdx indexes rng).1
    let index1 := (chooseTwoIdx indexes rng).2.1
    let rng1 := (chooseTwoIdx indexes rng).2.2
    if index0 == index1 then (false, gv, rng1)
    else (true, listSwap gv index0 index1, rng1)

/-- `Genome::mutate_swap_adjacent_rows`. -/
def mutateSwapAdjacentRows (gv : List GenomeItem) (rng : Rng) :
    Bool × List GenomeItem × Rng :=
  let indexes := eligibleIndexes gv (fun item => !item.mutationLocked)
  if indexes.length < 2 then (false, gv, rng)
  else
    let position := (genRange (indexes.length - 1) rng).1
    let rng1 := (genRange (indexes.length - 1) rng).2
    let index0 := indexes.getD position 0
    let index1 := indexes.getD (position + 1) 0
    match gv.get? index0, gv.get? index1 with
    | some item0, some item1 =>
        let isLoopPair :=
          (match item0.instructionId with
           | InstructionId.loopBegin | InstructionId.unofficialLoopBeginSubtract => true
           | _ => false) &&
          item1.instructionId == InstructionId.loopEnd
        if isLoopPair then (false, gv, rng1)
        else (true, listSwap gv index0 index1, rng1)
    | _, _ => (false, gv, rng1)

/-- `Genome::mutate_insert_loop`. -/
def mutateInsertLoop (gv : List GenomeItem) (rng : Rng) : Bool × List GenomeItem × Rng :=
  let length := gv.length
  if length < 2 then (false, gv, rng)
  else
    let index0 := (genRange length rng).1
    let rng1 := (genRange length rng).2
    let index1 := (genRange length rng1).1
    let rng2 := (genRange length rng1).2
    if index0 == index1 then (false, gv, rng2)
    else
      let loopEndItem := GenomeItem.new InstructionId.loopEnd RegisterType.direct 0
        ParameterType.constant 0
      let endIndex := Nat.max index0 index1
      let gvWithEnd := gv.take endIndex ++ loopEndItem :: gv.drop endIndex
      let registerDraw := (genRange 5 rng2).1
      let rng3 := (genRange 5 rng2).2
      let loopBeginItem := GenomeItem.new InstructionId.loopBegin RegisterType.direct
        (registerDraw : Int) ParameterType.constant 1
      let beginIndex := Nat.min index0 index1
      (true, gvWithEnd.take beginIndex ++ loopBeginItem :: gvWithEnd.drop beginIndex, rng3)

/-- Modelled from the spec: one attempt of
`GenomeItem::mutate_instruction_seq` (`genome_item.rs`) — draw a program
id from the popularity tier of the context; fail (no change) when the
tier is unavailable or the draw equals the current call target. -/
def GenomeItem.mutateInstructionSeqStep (ctx : GenomeMutateContext)
    (category : MutateEvalSequenceCategory) (item : GenomeItem) (rng : Rng) :
    Bool × GenomeItem × Rng :=
  let r := (rngNext rng).1
  let rng' := (rngNext rng).2
  match ctx.chooseProgramTable category r with
  | none => (false, item, rng')
  | some programId =>
      if programId == item.sourceValue then (false, item, rng')
      else (true, { item with sourceValue := programId }, rng')

/-- The retry loop of `mutate_instruction_seq`. -/
def mutateInstructionSeqTries (ctx : GenomeMutateContext)
    (category : MutateEvalSequenceCategory) (item : GenomeItem) :
    Nat → Rng → Option GenomeItem × Rng
  | 0, rng => (none, rng)
  | n + 1, rng =>
      let ok := (item.mutateInstructionSeqStep ctx category rng).1
      let item' := (item.mutateInstructionSeqStep ctx category rng).2.1
      let rng' := (item.mutateInstructionSeqStep ctx category rng).2.2
      if ok then (some item', rng')
      else mutateInstructionSeqTries ctx category item n rng'

/-- `Genome::mutate_instruction_seq`. -/
def mutateInstructionSeq (ctx : GenomeMutateContext)
    (category : MutateEvalSequenceCategory) (gv : List GenomeItem) (rng : Rng) :
    Bool × List GenomeItem × Rng :=
  let indexes := eligibleIndexes gv
    (fun item => !item.mutationLocked && item.sourceType == ParameterType.constant &&
      item.instructionId == InstructionId.evalSequence)
  if indexes.isEmpty then (false, gv, rng)
  else
    let index := (chooseIdx indexes rng).1
    let rng1 := (chooseIdx indexes rng).2
    match gv.get? index with
    | none => (false, gv, rng1)
    | some item =>
        let picked := (mutateInstructionSeqTries ctx category item 3 rng1).1
        let rng2 := (mutateInstructionSeqTries ctx category item 3 rng1).2
        match picked with
        | none => (false, gv, rng2)
        | some item' => (true, gv.set index item', rng2)

/-! ### `Genome::mutate` -/

/-- The operator kinds of the `MutateGenome` enum. -/
inductive MutateGenome
  | replaceInstructionWithHistogram
  | insertInstructionWithConstant
  | incrementSourceValueWhereTypeIsConstant
  | decrementSourceValueWhereTypeIsConstant
  | replaceSourceConstantWithHistogram
  | setSourceToConstant
  | setSourceToDirect
  | disableLoop
  | swapRegisters
  | incrementSourceValueWhereTypeIsDirect
  | decrementSourceValueWhereTypeIsDirect
  | replaceSourceWithHistogram
  | incrementTargetValueWhereTypeIsDirect
  | decrementTargetValueWhereTypeIsDirect
  | replaceTargetWithHistogram
  | replaceLineWithHistogram
  | insertLineWithHistogram
  | copyLine
  | toggleEnabled
  | swapRows
  | swapAdjacentRows
  | insertLoopBeginEnd
  | callProgramWeightedByPopularity
  | callMostPopularProgram
  | callMediumPopularProgram
  | callLeastPopularProgram
  | callRecentProgram
  | callProgramThatUsesIndirectMemoryAccess
deriving DecidableEq, Repr

/-- The fixed weight table of `Genome::mutate` (`mutation_vec`). -/
def mutationWeights : List (MutateGenome × Nat) :=
  [(MutateGenome.replaceInstructionWithHistogram, 10),
   (MutateGenome.insertInstructionWithConstant, 0),
   (MutateGenome.incrementSourceValueWhereTypeIsConstant, 10),
   (MutateGenome.decrementSourceValueWhereTypeIsConstant, 10),
   (MutateGenome.replaceSourceConstantWithHistogram, 10),
   (MutateGenome.setSourceToConstant, 10),
   (MutateGenome.setSourceToDirect, 10),
   (MutateGenome.disableLoop, 0),
   (MutateGenome.swapRegisters, 10),
   (MutateGenome.incrementSourceValueWhereTypeIsDirect, 10),
   (MutateGenome.decrementSourceValueWhereTypeIsDirect, 10),
   (MutateGenome.replaceSourceWithHistogram, 10),
   (MutateGenome.incrementTargetValueWhereTypeIsDirect, 10),
   (MutateGenome.decrementTargetValueWhereTypeIsDirect, 10),
   (MutateGenome.replaceTargetWithHistogram, 10),
   (MutateGenome.replaceLineWithHistogram, 50),
   (MutateGenome.insertLineWithHistogram, 50),
   (MutateGenome.copyLine, 10),
   (MutateGenome.toggleEnabled, 10),
   (MutateGenome.swapRows, 10),
   (MutateGenome.swapAdjacentRows, 10),
   (MutateGenome.insertLoopBeginEnd, 0),
   (MutateGenome.callProgramWeightedByPopularity, 0),
   (MutateGenome.callMostPopularProgram, 10),
   (MutateGenome.callMediumPopularProgram, 20),
   (MutateGenome.callLeastPopularProgram, 50),
   (MutateGenome.callRecentProgram, 300),
   (MutateGenome.callProgramThatUsesIndirectMemoryAccess, 0)]

/-- Debug name of an operator kind, as printed by `format!("mutate: {:?}")`. -/
def mutateGenomeName : MutateGenome → String
  | MutateGenome.replaceInstructionWithHistogram => "ReplaceInstructionWithHistogram"
  | MutateGenome.insertInstructionWithConstant => "InsertInstructionWithConstant"
  | MutateGenome.incrementSourceValueWhereTypeIsConstant => "IncrementSourceValueWhereTypeIsConstant"
  | MutateGenome.decrementSourceValueWhereTypeIsConstant => "DecrementSourceValueWhereTypeIsConstant"
  | MutateGenome.replaceSourceConstantWithHistogram => "ReplaceSourceConstantWithHistogram"
  | MutateGenome.setSourceToConstant => "SetSourceToConstant"
  | MutateGenome.setSourceToDirect => "SetSourceToDirect"
  | MutateGenome.disableLoop => "DisableLoop"
  | MutateGenome.swapRegisters => "SwapRegisters"
  | MutateGenome.incrementSourceValueWhereTypeIsDirect => "IncrementSourceValueWhereTypeIsDirect"
  | MutateGenome.decrementSourceValueWhereTypeIsDirect => "DecrementSourceValueWhereTypeIsDirect"
  | MutateGenome.replaceSourceWithHistogram => "ReplaceSourceWithHistogram"
  | MutateGenome.incrementTargetValueWhereTypeIsDirect => "IncrementTargetValueWhereTypeIsDirect"
  | MutateGenome.decrementTargetValueWhereTypeIsDirect => "DecrementTargetValueWhereTypeIsDirect"
  | MutateGenome.replaceTargetWithHistogram => "ReplaceTargetWithHistogram"
  | MutateGenome.replaceLineWithHistogram => "ReplaceLineWithHistogram"
  | MutateGenome.insertLineWithHistogram => "InsertLineWithHistogram"
  | MutateGenome.copyLine => "CopyLine"
  | MutateGenome.toggleEnabled => "ToggleEnabled"
  | MutateGenome.swapRows => "SwapRows"
  | MutateGenome.swapAdjacentRows => "SwapAdjacentRows"
  | MutateGenome.insertLoopBeginEnd => "InsertLoopBeginEnd"
  | MutateGenome.callProgramWeightedByPopularity => "CallProgramWeightedByPopularity"
  | MutateGenome.callMostPopularProgram => "CallMostPopularProgram"
  | MutateGenome.callMediumPopularProgram => "CallMediumPopularProgram"
  | MutateGenome.callLeastPopularProgram => "CallLeastPopularProgram"
  | MutateGenome.callRecentProgram => "CallRecentProgram"
  | MutateGenome.callProgramThatUsesIndirectMemoryAccess => "CallProgramThatUsesIndirectMemoryAccess"

/-- The dispatch `match` of `Genome::mutate`: run the chosen operator on
the row list. -/
def applyMutation (ext : Externals) (ctx : GenomeMutateContext) (mutation : MutateGenome)
    (gv : List GenomeItem) (rng : Rng) : Bool × List GenomeItem × Rng :=
  match mutation with
  | MutateGenome.replaceInstructionWithHistogram => replaceInstructionWithHistogram ctx gv rng
  | MutateGenome.insertInstructionWithConstant => insertInstructionWithConstant ctx gv rng
  | MutateGenome.incrementSourceValueWhereTypeIsConstant =>
      incrementSourceValueWhereTypeIsConstant gv rng
  | MutateGenome.decrementSourceValueWhereTypeIsConstant =>
      decrementSourceValueWhereTypeIsConstant gv rng
  | MutateGenome.replaceSourceConstantWithHistogram =>
      replaceSourceConstantWithHistogram ctx gv rng
  | MutateGenome.setSourceToConstant => mutateSetSourceToConstant ctx gv rng
  | MutateGenome.setSourceToDirect => mutateSetSourceToDirect gv rng
  | MutateGenome.disableLoop => mutateDisableLoop gv rng
  | MutateGenome.swapRegisters => mutateSwapRegisters gv rng
  | MutateGenome.incrementSourceValueWhereTypeIsDirect =>
      incrementSourceValueWhereTypeIsDirect gv rng
  | MutateGenome.decrementSourceValueWhereTypeIsDirect =>
      decrementSourceValueWhereTypeIsDirect gv rng
  | MutateGenome.replaceSourceWithHistogram => replaceSourceWithHistogram ctx gv rng
  | MutateGenome.incrementTargetValueWhereTypeIsDirect =>
      incrementTargetValueWhereTypeIsDirect gv rng
  | MutateGenome.decrementTargetValueWhereTypeIsDirect =>
      decrementTargetValueWhereTypeIsDirect gv rng
  | MutateGenome.replaceTargetWithHistogram => replaceTargetWithHistogram ctx gv rng
  | MutateGenome.replaceLineWithHistogram => replaceLineWithHistogram ext ctx gv rng
  | MutateGenome.insertLineWithHistogram => insertLineWithHistogram ext ctx gv rng
  | MutateGenome.copyLine => copyLine gv rng
  | MutateGenome.toggleEnabled => mutateEnabled gv rng
  | MutateGenome.swapRows => mutateSwapRows gv rng
  | MutateGenome.swapAdjacentRows => mutateSwapAdjacentRows gv rng
  | MutateGenome.insertLoopBeginEnd => mutateInsertLoop gv rng
  | MutateGenome.callProgramWeightedByPopularity =>
      mutateInstructionSeq ctx MutateEvalSequenceCategory.weightedByPopularity gv rng
  | MutateGenome.callMostPopularProgram =>
      mutateInstructionSeq ctx MutateEvalSequenceCategory.mostPopular gv rng
  | MutateGenome.callMediumPopularProgram =>
      mutateInstructionSeq ctx MutateEvalSequenceCategory.mediumPopular gv rng
  | MutateGenome.callLeastPopularProgram =>
      mutateInstructionSeq ctx MutateEvalSequenceCategory.leastPopular gv rng
  | MutateGenome.callRecentProgram =>
      mutateInstructionSeq ctx MutateEvalSequenceCategory.recent gv rng
  | MutateGenome.callProgramThatUsesIndirectMemoryAccess =>
      mutateInstructionSeq ctx MutateEvalSequenceCategory.programThatUsesIndirectMemoryAccess gv rng

/-- `Genome::mutate`: pick one operator from the fixed weighted
distribution, run it on the rows, and append exactly one
provenance message recording the operator and whether it changed
anything. -/
def Genome.mutate (ext : Externals) (ctx : GenomeMutateContext) (g : Genome) (rng : Rng) :
    Bool × Genome × Rng :=
  let mutation :=
    (chooseWeightedD mutationWeights MutateGenome.replaceInstructionWithHistogram rng).1
  let rng1 :=
    (chooseWeightedD mutationWeights MutateGenome.replaceInstructionWithHistogram rng).2
  let result := applyMutation ext ctx mutation g.genomeVec rng1
  let message :=
    if result.1 then "mutate: " ++ mutateGenomeName mutation
    else "mutate: " ++ mutateGenomeName mutation ++ ", no change"
  (result.1,
   { genomeVec := result.2.1, messageVec := g.messageVec ++ [message] },
   result.2.2)

/-! ### Basic facts about the mutation embedding -/

/-- Membership in a filtered index list yields the row and its
eligibility. -/
theorem mem_eligibleIndexes {gv : List GenomeItem} {p : GenomeItem → Bool} {i : Nat}
    (h : i ∈ eligibleIndexes gv p) : ∃ item, gv.get? i = some item ∧ p item = true := by
  unfold eligibleIndexes at h
  rw [List.mem_filter] at h
  obtain ⟨-, h2⟩ := h
  cases hg : gv.get? i with
  | none => rw [hg] at h2; exact absurd h2 (by simp)
  | some item => rw [hg] at h2; exact ⟨item, rfl, h2⟩

/-- A choice from a nonempty index list is a member of it. -/
theorem chooseIdx_mem {l : List Nat} (hne : l.isEmpty = false) (rng : Rng) :
    (chooseIdx l rng).1 ∈ l := by
  have hlen : 0 < l.length := by
    cases l with
    | nil => simp at hne
    | cons a t => simp
  unfold chooseIdx
  have hlt : (rngNext rng).1 % l.length < l.length := Nat.mod_lt _ hlen
  simp only []
  rw [List.getD_eq_getElem l 0 hlt]
  exact List.getElem_mem hlt

/-- `replace_instruction_with_histogram` never touches the rows when it
reports failure. -/
theorem replaceInstructionWithHistogram_noChange (ctx : GenomeMutateContext)
    (gv : List GenomeItem) (rng : Rng) {gv' : List GenomeItem} {rng2 : Rng}
    (h : replaceInstructionWithHistogram ctx gv rng = (false, gv', rng2)) : gv' = gv := by
  unfold replaceInstructionWithHistogram at h
  repeat' first
    | split at h
    | (dsimp only at h; split at h)
  all_goals (injection h with h1 h2; injection h2 with h2a h2b)
  all_goals first
    | exact h2a.symm
    | exact absurd h1 (by simp)

/-- `insert_instruction_with_constant` never touches the rows when it
reports failure. -/
theorem insertInstructionWithConstant_noChange (ctx : GenomeMutateContext)
    (gv : List GenomeItem) (rng : Rng) {gv' : List GenomeItem} {rng2 : Rng}
    (h : insertInstructionWithConstant ctx gv rng = (false, gv', rng2)) : gv' = gv := by
  unfold insertInstructionWithConstant at h
  repeat' first
    | split at h
    | (dsimp only at h; split at h)
  all_goals (injection h with h1 h2; injection h2 with h2a h2b)
  all_goals first
    | exact h2a.symm
    | exact absurd h1 (by simp)

/-- `increment_source_value_where_type_is_constant` never touches the rows
when it reports failure. -/
theorem incrementSourceValueWhereTypeIsConstant_noChange (gv : List GenomeItem) (rng : Rng)
    {gv' : List GenomeItem} {rng2 : Rng}
    (h : incrementSourceValueWhereTypeIsConstant gv rng = (false, gv', rng2)) : gv' = gv := by
  unfold incrementSourceValueWhereTypeIsConstant at h
  repeat' first
    | split at h
    | (dsimp only at h; split at h)
  all_goals (injection h with h1 h2; injection h2 with h2a h2b)
  all_goals first
    | exact h2a.symm
    | exact absurd h1 (by simp)

/-- `decrement_source_value_where_type_is_constant` never touches the rows
when it reports failure. -/
theorem decrementSourceValueWhereTypeIsConstant_noChange (gv : List GenomeItem) (rng : Rng)
    {gv' : List GenomeItem} {rng2 : Rng}
    (h : decrementSourceValueWhereTypeIsConstant gv rng = (false, gv', rng2)) : gv' = gv := by
  unfold decrementSourceValueWhereTypeIsConstant at h
  repeat' first
    | split at h
    | (dsimp only at h; split at h)
  all_goals (injection h with h1 h2; injection h2 with h2a h2b)
  all_goals first
    | exact h2a.symm
    | exact absurd h1 (by simp)

/-- `replace_source_constant_with_histogram` never touches the rows when
it reports failure. -/
theorem replaceSourceConstantWithHistogram_noChange (ctx : GenomeMutateContext)
    (gv : List GenomeItem) (rng : Rng) {gv' : List GenomeItem} {rng2 : Rng}
    (h : replaceSourceConstantWithHistogram ctx gv rng = (false, gv', rng2)) : gv' = gv := by
  unfold replaceSourceConstantWithHistogram at h
  repeat' first
    | split at h
    | (dsimp only at h; split at h)
  all_goals (injection h with h1 h2; injection h2 with h2a h2b)
  all_goals first
    | exact h2a.symm
    | exact absurd h1 (by simp)

/-- `mutate_set_source_to_constant` never touches the rows when it
reports failure. -/
theorem mutateSetSourceToConstant_noChange (ctx : GenomeMutateContext)
    (gv : List GenomeItem) (rng : Rng) {gv' : List GenomeItem} {rng2 : Rng}
    (h : mutateSetSourceToConstant ctx gv rng = (false, gv', rng2)) : gv' = gv := by
  unfold mutateSetSourceToConstant at h
  repeat' first
    | split at h
    | (dsimp only at h; split at h)
  all_goals (injection h with h1 h2; injection h2 with h2a h2b)
  all_goals first
    | exact h2a.symm
    | exact absurd h1 (by simp)

/-- `mutate_set_source_to_direct` never touches the rows when it reports
failure. -/
theorem mutateSetSourceToDirect_noChange (gv : List GenomeItem) (rng : Rng)
    {gv' : List GenomeItem} {rng2 : Rng}
    (h : mutateSetSourceToDirect gv rng = (false, gv', rng2)) : gv' = gv := by
  unfold mutateSetSourceToDirect at h
  repeat' first
    | split at h
    | (dsimp only at h; split at h)
  all_goals (injection h with h1 h2; injection h2 with h2a h2b)
  all_goals first
    | exact h2a.symm
    | exact absurd h1 (by simp)

/-- `mutate_disable_loop` never touches the rows when it reports
failure. -/
theorem mutateDisableLoop_noChange (gv : List GenomeItem) (rng : Rng)
    {gv' : List GenomeItem} {rng2 : Rng}
    (h : mutateDisableLoop gv rng = (false, gv', rng2)) : gv' = gv := by
  unfold mutateDisableLoop at h
  repeat' first
    | split at h
    | (dsimp only at h; split at h)
  all_goals (injection h with h1 h2; injection h2 with h2a h2b)
  all_goals first
    | exact h2a.symm
    | exact absurd h1 (by simp)

/-- `mutate_swap_registers` never touches the rows when it reports
failure. -/
theorem mutateSwapRegisters_noChange (gv : List GenomeItem) (rng : Rng)
    {gv' : List GenomeItem} {rng2 : Rng}
    (h : mutateSwapRegisters gv rng = (false, gv', rng2)) : gv' = gv := by
  unfold mutateSwapRegisters at h
  repeat' first
    | split at h
    | (dsimp only at h; split at h)
  all_goals (injection h with h1 h2; injection h2 with h2a h2b)
  all_goals first
    | exact h2a.symm
    | exact absurd h1 (by simp)

/-- `increment_source_value_where_type_is_direct` never touches the rows
when it reports failure. -/
theorem incrementSourceValueWhereTypeIsDirect_noChange (gv : List GenomeItem) (rng : Rng)
    {gv' : List GenomeItem} {rng2 : Rng}
    (h : incrementSourceValueWhereTypeIsDirect gv rng = (false, gv', rng2)) : gv' = gv := by
  unfold incrementSourceValueWhereTypeIsDirect at h
  repeat' first
    | split at h
    | (dsimp only at h; split at h)
  all_goals (injection h with h1 h2; injection h2 with h2a h2b)
  all_goals first
    | exact h2a.symm
    | exact absurd h1 (by simp)

/-- `decrement_source_value_where_type_is_direct` never touches the rows
when it reports failure. -/
theorem decrementSourceValueWhereTypeIsDirect_noChange (gv : List GenomeItem) (rng : Rng)
    {gv' : List GenomeItem} {rng2 : Rng}
    (h : decrementSourceValueWhereTypeIsDirect gv rng = (false, gv', rng2)) : gv' = gv := by
  unfold decrementSourceValueWhereTypeIsDirect at h
  repeat' first
    | split at h
    | (dsimp only at h; split at h)
  all_goals (injection h with h1 h2; injection h2 with h2a h2b)
  all_goals first
    | exact h2a.symm
    | exact absurd h1 (by simp)

/-- `replace_source_with_histogram` never touches the rows when it
reports failure. -/
theorem replaceSourceWithHistogram_noChange (ctx : GenomeMutateContext)
    (gv : List GenomeItem) (rng : Rng) {gv' : List GenomeItem} {rng2 : Rng}
    (h : replaceSourceWithHistogram ctx gv rng = (false, gv', rng2)) : gv' = gv := by
  unfold replaceSourceWithHistogram at h
  repeat' first
    | split at h
    | (dsimp only at h; split at h)
  all_goals (injection h with h1 h2; injection h2 with h2a h2b)
  all_goals first
    | exact h2a.symm
    | exact absurd h1 (by simp)

/-- `increment_target_value_where_type_is_direct` never touches the rows
when it reports failure. -/
theorem incrementTargetValueWhereTypeIsDirect_noChange (gv : List GenomeItem) (rng : Rng)
    {gv' : List GenomeItem} {rng2 : Rng}
    (h : incrementTargetValueWhereTypeIsDirect gv rng = (false, gv', rng2)) : gv' = gv := by
  unfold incrementTargetValueWhereTypeIsDirect at h
  repeat' first
    | split at h
    | (dsimp only at h; split at h)
  all_goals (injection h with h1 h2; injection h2 with h2a h2b)
  all_goals first
    | exact h2a.symm
    | exact absurd h1 (by simp)

/-- `decrement_target_value_where_type_is_direct` never touches the rows
when it reports failure. -/
theorem decrementTargetValueWhereTypeIsDirect_noChange (gv : List GenomeItem) (rng : Rng)
    {gv' : List GenomeItem} {rng2 : Rng}
    (h : decrementTargetValueWhereTypeIsDirect gv rng = (false, gv', rng2)) : gv' = gv := by
  unfold decrementTargetValueWhereTypeIsDirect at h
  repeat' first
    | split at h
    | (dsimp only at h; split at h)
  all_goals (injection h with h1 h2; injection h2 with h2a h2b)
  all_goals first
    | exact h2a.symm
    | exact absurd h1 (by simp)

/-- `replace_target_with_histogram` never touches the rows when it
reports failure. -/
theorem replaceTargetWithHistogram_noChange (ctx : GenomeMutateContext)
    (gv : List GenomeItem) (rng : Rng) {gv' : List GenomeItem} {rng2 : Rng}
    (h : replaceTargetWithHistogram ctx gv rng = (false, gv', rng2)) : gv' = gv := by
  unfold replaceTargetWithHistogram at h
  repeat' first
    | split at h
    | (dsimp only at h; split at h)
  all_goals (injection h with h1 h2; injection h2 with h2a h2b)
  all_goals first
    | exact h2a.symm
    | exact absurd h1 (by simp)

/-- `replace_line_with_histogram` never touches the rows when it reports
failure. -/
theorem replaceLineWithHistogram_noChange (ext : Externals) (ctx : GenomeMutateContext)
    (gv : List GenomeItem) (rng : Rng) {gv' : List GenomeItem} {rng2 : Rng}
    (h : replaceLineWithHistogram ext ctx gv rng = (false, gv', rng2)) : gv' = gv := by
  unfold replaceLineWithHistogram at h
  repeat' first
    | split at h
    | (dsimp only at h; split at h)
  all_goals (injection h with h1 h2; injection h2 with h2a h2b)
  all_goals first
    | exact h2a.symm
    | exact absurd h1 (by simp)

/-- `insert_line_with_histogram` never touches the rows when it reports
failure. -/
theorem insertLineWithHistogram_noChange (ext : Externals) (ctx : GenomeMutateContext)
    (gv : List GenomeItem) (rng : Rng) {gv' : List GenomeItem} {rng2 : Rng}
    (h : insertLineWithHistogram ext ctx gv rng = (false, gv', rng2)) : gv' = gv := by
  unfold insertLineWithHistogram at h
  repeat' first
    | split at h
    | (dsimp only at h; split at h)
  all_goals (injection h with h1 h2; injection h2 with h2a h2b)
  all_goals first
    | exact h2a.symm
    | exact absurd h1 (by simp)

/-- `copy_line` never touches the rows when it reports failure. -/
theorem copyLine_noChange (gv : List GenomeItem) (rng : Rng)
    {gv' : List GenomeItem} {rng2 : Rng}
    (h : copyLine gv rng = (false, gv', rng2)) : gv' = gv := by
  unfold copyLine at h
  repeat' first
    | split at h
    | (dsimp only at h; split at h)
  all_goals (injection h with h1 h2; injection h2 with h2a h2b)
  all_goals first
    | exact h2a.symm
    | exact absurd h1 (by simp)

/-- `mutate_enabled` never touches the rows when it reports failure. -/
theorem mutateEnabled_noChange (gv : List GenomeItem) (rng : Rng)
    {gv' : List GenomeItem} {rng2 : Rng}
    (h : mutateEnabled gv rng = (false, gv', rng2)) : gv' = gv := by
  unfold mutateEnabled at h
  repeat' first
    | split at h
    | (dsimp only at h; split at h)
  all_goals (injection h with h1 h2; injection h2 with h2a h2b)
  all_goals first
    | exact h2a.symm
    | exact absurd h1 (by simp)

/-- `mutate_swap_rows` never touches the rows when it reports failure. -/
theorem mutateSwapRows_noChange (gv : List GenomeItem) (rng : Rng)
    {gv' : List GenomeItem} {rng2 : Rng}
    (h : mutateSwapRows gv rng = (false, gv', rng2)) : gv' = gv := by
  unfold mutateSwapRows at h
  repeat' first
    | split at h
    | (dsimp only at h; split at h)
  all_goals (injection h with h1 h2; injection h2 with h2a h2b)
  all_goals first
    | exact h2a.symm
    | exact absurd h1 (by simp)

/-- `mutate_swap_adjacent_rows` never touches the rows when it reports
failure. -/
theorem mutateSwapAdjacentRows_noChange (gv : List GenomeItem) (rng : Rng)
    {gv' : List GenomeItem} {rng2 : Rng}
    (h : mutateSwapAdjacentRows gv rng = (false, gv', rng2)) : gv' = gv := by
  unfold mutateSwapAdjacentRows at h
  repeat' first
    | split at h
    | (dsimp only at h; split at h)
  all_goals (injection h with h1 h2; injection h2 with h2a h2b)
  all_goals first
    | exact h2a.symm
    | exact absurd h1 (by simp)

/-- `mutate_insert_loop` never touches the rows when it reports
failure. -/
theorem mutateInsertLoop_noChange (gv : List GenomeItem) (rng : Rng)
    {gv' : List GenomeItem} {rng2 : Rng}
    (h : mutateInsertLoop gv rng = (false, gv', rng2)) : gv' = gv := by
  unfold mutateInsertLoop at h
  repeat' first
    | split at h
    | (dsimp only at h; split at h)
  all_goals (injection h with h1 h2; injection h2 with h2a h2b)
  all_goals first
    | exact h2a.symm
    | exact absurd h1 (by simp)

/-- `mutate_instruction_seq` never touches the rows when it reports
failure. -/
theorem mutateInstructionSeq_noChange (ctx : GenomeMutateContext)
    (category : MutateEvalSequenceCategory) (gv : List GenomeItem) (rng : Rng)
    {gv' : List GenomeItem} {rng2 : Rng}
    (h : mutateInstructionSeq ctx category gv rng = (false, gv', rng2)) : gv' = gv := by
  unfold mutateInstructionSeq at h
  repeat' first
    | split at h
    | (dsimp only at h; split at h)
  all_goals (injection h with h1 h2; injection h2 with h2a h2b)
  all_goals first
    | exact h2a.symm
    | exact absurd h1 (by simp)

/-- Whatever operator `Genome::mutate` dispatches to, a `false` result
leaves the rows untouched. -/
theorem applyMutation_noChange (ext : Externals) (ctx : GenomeMutateContext)
    (mutation : MutateGenome) (gv : List GenomeItem) (rng : Rng)
    {gv' : List GenomeItem} {rng2 : Rng}
    (h : applyMutation ext ctx mutation gv rng = (false, gv', rng2)) : gv' = gv := by
  cases mutation
  case replaceInstructionWithHistogram => exact replaceInstructionWithHistogram_noChange ctx gv rng h
  case insertInstructionWithConstant => exact insertInstructionWithConstant_noChange ctx gv rng h
  case incrementSourceValueWhereTypeIsConstant =>
    exact incrementSourceValueWhereTypeIsConstant_noChange gv rng h
  case decrementSourceValueWhereTypeIsConstant =>
    exact decrementSourceValueWhereTypeIsConstant_noChange gv rng h
  case replaceSourceConstantWithHistogram =>
    exact replaceSourceConstantWithHistogram_noChange ctx gv rng h
  case setSourceToConstant => exact mutateSetSourceToConstant_noChange ctx gv rng h
  case setSourceToDirect => exact mutateSetSourceToDirect_noChange gv rng h
  case disableLoop => exact mutateDisableLoop_noChange gv rng h
  case swapRegisters => exact mutateSwapRegisters_noChange gv rng h
  case incrementSourceValueWhereTypeIsDirect =>
    exact incrementSourceValueWhereTypeIsDirect_noChange gv rng h
  case decrementSourceValueWhereTypeIsDirect =>
    exact decrementSourceValueWhereTypeIsDirect_noChange gv rng h
  case replaceSourceWithHistogram => exact replaceSourceWithHistogram_noChange ctx gv rng h
  case incrementTargetValueWhereTypeIsDirect =>
    exact incrementTargetValueWhereTypeIsDirect_noChange gv rng h
  case decrementTargetValueWhereTypeIsDirect =>
    exact decrementTargetValueWhereTypeIsDirect_noChange gv rng h
  case replaceTargetWithHistogram => exact replaceTargetWithHistogram_noChange ctx gv rng h
  case replaceLineWithHistogram => exact replaceLineWithHistogram_noChange ext ctx gv rng h
  case insertLineWithHistogram => exact insertLineWithHistogram_noChange ext ctx gv rng h
  case copyLine => exact copyLine_noChange gv rng h
  case toggleEnabled => exact mutateEnabled_noChange gv rng h
  case swapRows => exact mutateSwapRows_noChange gv rng h
  case swapAdjacentRows => exact mutateSwapAdjacentRows_noChange gv rng h
  case insertLoopBeginEnd => exact mutateInsertLoop_noChange gv rng h
  case callProgramWeightedByPopularity => exact mutateInstructionSeq_noChange ctx _ gv rng h
  case callMostPopularProgram => exact mutateInstructionSeq_noChange ctx _ gv rng h
  case callMediumPopularProgram => exact mutateInstructionSeq_noChange ctx _ gv rng h
  case callLeastPopularProgram => exact mutateInstructionSeq_noChange ctx _ gv rng h
  case callRecentProgram => exact mutateInstructionSeq_noChange ctx _ gv rng h
  case callProgramThatUsesIndirectMemoryAccess => exact mutateInstructionSeq_noChange ctx _ gv rng h

/-- C10: every call to `Genome::mutate` appends exactly one entry to the
mutation-message log — whether or not the chosen operator reports a
change — so the genome value as a whole never comes back unmodified. -/
theorem genomeMutate_appends_one_message (ext : Externals) (ctx : GenomeMutateContext)
    (g : Genome) (rng : Rng) :
    (∃ m, ((Genome.mutate ext ctx g rng).2.1).messageVec = g.messageVec ++ [m]) ∧
      (Genome.mutate ext ctx g rng).2.1 ≠ g := by
  constructor
  · exact ⟨_, rfl⟩
  · intro h
    have hlen := congrArg (fun x => x.messageVec.length) h
    simp only [Genome.mutate, List.length_append, List.length_singleton] at hlen
    omega

/-- Externals stub for concrete evaluations: the parser rejects every
line and the serializer is constant. -/
def mutateStubExternals : Externals :=
  { parseFirstLine := fun _ => none, toLineString := fun _ => "" }

/-- Context stub for concrete evaluations: every statistics table is
absent. -/
def mutateStubContext : GenomeMutateContext :=
  { chooseConstantTable := none
    suggestInstructionTable := none
    suggestLineTable := none
    suggestSourceTable := none
    suggestTargetTable := none
    chooseProgramTable := fun _ _ => none }

/-- A plain `mov $0,1` row, used twice in the C5 counterexample. -/
def duplicatedRow : GenomeItem :=
  GenomeItem.new InstructionId.move RegisterType.direct 0 ParameterType.constant 1

/-- C5 (amended): one `Genome::mutate` call dispatches to exactly one
operator drawn from the fixed weight table, and whenever its boolean
result is `false` the instruction rows are unchanged.  (The converse
fails: a `true` result does not always mean the rows changed.) -/
theorem genomeMutate_false_rows_unchanged (ext : Externals) (ctx : GenomeMutateContext)
    (g : Genome) (rng : Rng)
    (h : (Genome.mutate ext ctx g rng).1 = false) :
    (Genome.mutate ext ctx g rng).2.1.genomeVec = g.genomeVec := by
  rcases hres : applyMutation ext ctx
      (chooseWeightedD mutationWeights MutateGenome.replaceInstructionWithHistogram rng).1
      g.genomeVec
      (chooseWeightedD mutationWeights MutateGenome.replaceInstructionWithHistogram rng).2
    with ⟨b, gv2, rngOut⟩
  have hfst : (Genome.mutate ext ctx g rng).1 = b := by
    show (applyMutation ext ctx
      (chooseWeightedD mutationWeights MutateGenome.replaceInstructionWithHistogram rng).1
      g.genomeVec
      (chooseWeightedD mutationWeights MutateGenome.replaceInstructionWithHistogram rng).2).1 = b
    rw [hres]
  have hsnd : (Genome.mutate ext ctx g rng).2.1.genomeVec = gv2 := by
    show (applyMutation ext ctx
      (chooseWeightedD mutationWeights MutateGenome.replaceInstructionWithHistogram rng).1
      g.genomeVec
      (chooseWeightedD mutationWeights MutateGenome.replaceInstructionWithHistogram rng).2).2.1 = gv2
    rw [hres]
  rw [hfst] at h
  subst h
  rw [hsnd]
  exact applyMutation_noChange ext ctx _ g.genomeVec _ hres

/-- Witness for the amended C5 at a concrete input: with every context
table absent, the chosen operator fails and the rows come back
untouched. -/
theorem genomeMutate_false_rows_unchanged_witness :
    (Genome.mutate mutateStubExternals mutateStubContext
      { genomeVec := [], messageVec := [] } [0]).2.1.genomeVec = [] :=
  genomeMutate_false_rows_unchanged mutateStubExternals mutateStubContext
    { genomeVec := [], messageVec := [] } [0] (by decide)

/-- C5 counterexample: with the random stream steering the weighted
choice to `SwapRows` and the genome holding two identical rows, `mutate`
returns `true` while the instruction rows are unchanged — so the boolean
result is not equivalent to "the genome actually changed". -/
theorem genomeMutate_true_without_row_change :
    (Genome.mutate mutateStubExternals mutateStubContext
        { genomeVec := [duplicatedRow, duplicatedRow], messageVec := [] } [250, 0, 0]).1 = true ∧
      (Genome.mutate mutateStubExternals mutateStubContext
          { genomeVec := [duplicatedRow, duplicatedRow], messageVec := [] }
          [250, 0, 0]).2.1.genomeVec =
        [duplicatedRow, duplicatedRow] := by
  constructor
  · decide
  · decide

/-- If the loaded histogram always returns the row's current constant,
every retry draws the original value and the retry budget runs out. -/
theorem replaceSourceConstantTries_exhausts (ctx : GenomeMutateContext) (item : GenomeItem)
    (f : InstructionId → Nat → Option Int) (hf : ctx.chooseConstantTable = some f)
    (hsame : ∀ r, f item.instructionId r = some item.sourceValue) :
    ∀ (n : Nat) (rng : Rng), (replaceSourceConstantTries ctx item n rng).1 = none := by
  intro n
  induction n with
  | zero => intro rng; rfl
  | succ m ih =>
      intro rng
      unfold replaceSourceConstantTries
      unfold GenomeMutateContext.chooseConstantWithHistogram
      rw [hf]
      dsimp only
      rw [hsame]
      simp only [beq_self_eq_true, if_true]
      exact ih _

/-- If the loaded histogram always returns the current constant of every
row, `replace_source_constant_with_histogram` reports failure. -/
theorem replaceSourceConstant_all_same_fails (ctx : GenomeMutateContext)
    (gv : List GenomeItem) (rng : Rng) (f : InstructionId → Nat → Option Int)
    (hf : ctx.chooseConstantTable = some f)
    (hsame : ∀ (i : Nat) (item : GenomeItem), gv.get? i = some item →
      ∀ r, f item.instructionId r = some item.sourceValue) :
    (replaceSourceConstantWithHistogram ctx gv rng).1 = false := by
  unfold replaceSourceConstantWithHistogram
  split
  · rfl
  · dsimp only
    split
    · rfl
    · rename_i hhist hne
      have hne' : (eligibleIndexes gv constantSourceEligible).isEmpty = false := by
        simpa using hne
      have hmem := chooseIdx_mem hne' rng
      obtain ⟨item, hitem, -⟩ := mem_eligibleIndexes hmem
      rw [hitem]
      dsimp only
      rcases htries : replaceSourceConstantTries ctx item 3
          (chooseIdx (eligibleIndexes gv constantSourceEligible) rng).2 with ⟨picked, rngT⟩
      have hnone := replaceSourceConstantTries_exhausts ctx item f hf
        (hsame _ item hitem) 3 (chooseIdx (eligibleIndexes gv constantSourceEligible) rng).2
      rw [htries] at hnone
      simp only at hnone
      subst hnone
      rfl

/-- C6: the cited operators, invoked with no eligible row, with the
required context table absent, or with the randomized resampling unable
to produce a fresh value within its budget of 3, return `false` and leave
the genome rows identical; a `false` result never comes with a change.
(The operators are total functions: no error is ever raised.) -/
theorem mutationOperator_noop_contract :
    ∀ (gv : List GenomeItem) (rng : Rng) (ctx : GenomeMutateContext),
      ((eligibleIndexes gv constantSourceEligible).isEmpty = true →
        incrementSourceValueWhereTypeIsConstant gv rng = (false, gv, rng) ∧
        decrementSourceValueWhereTypeIsConstant gv rng = (false, gv, rng) ∧
        replaceSourceConstantWithHistogram ctx gv rng = (false, gv, rng)) ∧
      (ctx.hasHistogramInstructionConstant = false →
        replaceSourceConstantWithHistogram ctx gv rng = (false, gv, rng)) ∧
      (∀ f, ctx.chooseConstantTable = some f →
        (∀ (i : Nat) (item : GenomeItem), gv.get? i = some item →
          ∀ r, f item.instructionId r = some item.sourceValue) →
        (replaceSourceConstantWithHistogram ctx gv rng).1 = false ∧
        (replaceSourceConstantWithHistogram ctx gv rng).2.1 = gv) ∧
      ((incrementSourceValueWhereTypeIsConstant gv rng).1 = false →
        (incrementSourceValueWhereTypeIsConstant gv rng).2.1 = gv) ∧
      ((decrementSourceValueWhereTypeIsConstant gv rng).1 = false →
        (decrementSourceValueWhereTypeIsConstant gv rng).2.1 = gv) ∧
      ((replaceSourceConstantWithHistogram ctx gv rng).1 = false →
        (replaceSourceConstantWithHistogram ctx gv rng).2.1 = gv) := by
  intro gv rng ctx
  refine ⟨?_, ?_, ?_, ?_, ?_, ?_⟩
  · intro hempty
    refine ⟨?_, ?_, ?_⟩
    · unfold incrementSourceValueWhereTypeIsConstant
      rw [if_pos hempty]
    · unfold decrementSourceValueWhereTypeIsConstant
      rw [if_pos hempty]
    · unfold replaceSourceConstantWithHistogram
      split
      · rfl
      · rw [if_pos hempty]
  · intro hno
    unfold replaceSourceConstantWithHistogram
    rw [if_pos (by rw [hno]; rfl)]
  · intro f hf hsame
    have hfalse := replaceSourceConstant_all_same_fails ctx gv rng f hf hsame
    refine ⟨hfalse, ?_⟩
    rcases hres : replaceSourceConstantWithHistogram ctx gv rng with ⟨b, gv2, rngOut⟩
    rw [hres] at hfalse
    simp only at hfalse
    subst hfalse
    exact replaceSourceConstantWithHistogram_noChange ctx gv rng hres
  · intro hfalse
    rcases hres : incrementSourceValueWhereTypeIsConstant gv rng with ⟨b, gv2, rngOut⟩
    rw [hres] at hfalse
    simp only at hfalse
    subst hfalse
    exact incrementSourceValueWhereTypeIsConstant_noChange gv rng hres
  · intro hfalse
    rcases hres : decrementSourceValueWhereTypeIsConstant gv rng with ⟨b, gv2, rngOut⟩
    rw [hres] at hfalse
    simp only at hfalse
    subst hfalse
    exact decrementSourceValueWhereTypeIsConstant_noChange gv rng hres
  · intro hfalse
    rcases hres : replaceSourceConstantWithHistogram ctx gv rng with ⟨b, gv2, rngOut⟩
    rw [hres] at hfalse
    simp only at hfalse
    subst hfalse
    exact replaceSourceConstantWithHistogram_noChange ctx gv rng hres

/-- Shape of a run of the constant-increment operator: either the rows
come back untouched, or exactly one eligible row has its constant bumped
by one, and when that row is a Divide/DivideIf/Modulo the new constant is
guarded away from 0. -/
theorem incrementSourceValueWhereTypeIsConstant_spec (gv : List GenomeItem) (rng : Rng) :
    (incrementSourceValueWhereTypeIsConstant gv rng).2.1 = gv ∨
    ∃ index item, gv.get? index = some item ∧ constantSourceEligible item = true ∧
      (incrementSourceValueWhereTypeIsConstant gv rng).2.1 =
        gv.set index { item with sourceValue := item.sourceValue + 1 } ∧
      ((item.instructionId = InstructionId.divide ∨
        item.instructionId = InstructionId.divideIf ∨
        item.instructionId = InstructionId.modulo) → item.sourceValue + 1 ≠ 0) := by
  unfold incrementSourceValueWhereTypeIsConstant
  dsimp only
  split
  · left; rfl
  · rename_i hne
    have hne' : (eligibleIndexes gv constantSourceEligible).isEmpty = false := by
      simpa using hne
    obtain ⟨item0, hitem0, helig⟩ := mem_eligibleIndexes (chooseIdx_mem hne' rng)
    rw [hitem0]
    dsimp only
    split
    · left; rfl
    · split
      · left; rfl
      · split
        · left; rfl
        · split
          · left; rfl
          · rename_i hg1 hg2 hg3
            right
            refine ⟨_, item0, hitem0, helig, rfl, ?_⟩
            rintro (h | h | h) hzero
            · rw [h] at hg1; simp [hzero] at hg1
            · rw [h] at hg2; simp [hzero] at hg2
            · rw [h] at hg3; simp [hzero] at hg3

/-- Shape of a run of the constant-decrement operator, mirroring
`incrementSourceValueWhereTypeIsConstant_spec`. -/
theorem decrementSourceValueWhereTypeIsConstant_spec (gv : List GenomeItem) (rng : Rng) :
    (decrementSourceValueWhereTypeIsConstant gv rng).2.1 = gv ∨
    ∃ index item, gv.get? index = some item ∧ constantSourceEligible item = true ∧
      (decrementSourceValueWhereTypeIsConstant gv rng).2.1 =
        gv.set index { item with sourceValue := item.sourceValue - 1 } ∧
      ((item.instructionId = InstructionId.divide ∨
        item.instructionId = InstructionId.divideIf ∨
        item.instructionId = InstructionId.modulo) → item.sourceValue - 1 ≠ 0) := by
  unfold decrementSourceValueWhereTypeIsConstant
  dsimp only
  split
  · left; rfl
  · rename_i hne
    have hne' : (eligibleIndexes gv constantSourceEligible).isEmpty = false := by
      simpa using hne
    obtain ⟨item0, hitem0, helig⟩ := mem_eligibleIndexes (chooseIdx_mem hne' rng)
    rw [hitem0]
    dsimp only
    split
    · left; rfl
    · split
      · left; rfl
      · split
        · left; rfl
        · split
          · left; rfl
          · rename_i hg1 hg2 hg3
            right
            refine ⟨_, item0, hitem0, helig, rfl, ?_⟩
            rintro (h | h | h) hzero
            · rw [h] at hg1; simp [hzero] at hg1
            · rw [h] at hg2; simp [hzero] at hg2
            · rw [h] at hg3; simp [hzero] at hg3

/-- C7: the constant increment/decrement operators never touch a
`mutation_locked` row, and never turn the constant of a Divide, DivideIf
or Modulo row from nonzero to zero. -/
theorem incDecConstant_lock_and_divisor_invariant :
    ∀ (gv : List GenomeItem) (rng : Rng) (i : Nat) (item : GenomeItem),
      gv.get? i = some item →
      (item.mutationLocked = true →
        (incrementSourceValueWhereTypeIsConstant gv rng).2.1.get? i = some item ∧
        (decrementSourceValueWhereTypeIsConstant gv rng).2.1.get? i = some item) ∧
      ((item.instructionId = InstructionId.divide ∨
        item.instructionId = InstructionId.divideIf ∨
        item.instructionId = InstructionId.modulo) →
        item.sourceType = ParameterType.constant →
        item.sourceValue ≠ 0 →
        (∀ item2, (incrementSourceValueWhereTypeIsConstant gv rng).2.1.get? i = some item2 →
          item2.sourceValue ≠ 0) ∧
        (∀ item2, (decrementSourceValueWhereTypeIsConstant gv rng).2.1.get? i = some item2 →
          item2.sourceValue ≠ 0)) := by
  intro gv rng i item hi
  constructor
  · intro hlocked
    constructor
    · rcases incrementSourceValueWhereTypeIsConstant_spec gv rng with hsame | ⟨idx, it, hit, helig, hset, -⟩
      · rw [hsame, hi]
      · have hne : idx ≠ i := by
          intro hEq
          subst hEq
          rw [hi] at hit
          injection hit with hit
          subst hit
          simp [constantSourceEligible, hlocked] at helig
        rw [hset, List.get?_set_ne _ _ hne, hi]
    · rcases decrementSourceValueWhereTypeIsConstant_spec gv rng with hsame | ⟨idx, it, hit, helig, hset, -⟩
      · rw [hsame, hi]
      · have hne : idx ≠ i := by
          intro hEq
          subst hEq
          rw [hi] at hit
          injection hit with hit
          subst hit
          simp [constantSourceEligible, hlocked] at helig
        rw [hset, List.get?_set_ne _ _ hne, hi]
  · intro hdiv hconst hnz
    constructor
    · intro item2 hitem2
      rcases incrementSourceValueWhereTypeIsConstant_spec gv rng with hsame | ⟨idx, it, hit, helig, hset, hguard⟩
      · rw [hsame, hi] at hitem2
        injection hitem2 with hitem2
        subst hitem2
        exact hnz
      · by_cases hEq : idx = i
        · subst hEq
          rw [hi] at hit
          injection hit with hit
          subst hit
          have hlen : idx < gv.length := by
            rcases List.get?_eq_some.mp hi with ⟨hl, -⟩
            exact hl
          rw [hset, List.get?_set_eq_of_lt _ hlen] at hitem2
          injection hitem2 with hitem2
          subst hitem2
          exact hguard hdiv
        · rw [hset, List.get?_set_ne _ _ hEq, hi] at hitem2
          injection hitem2 with hitem2
          subst hitem2
          exact hnz
    · intro item2 hitem2
      rcases decrementSourceValueWhereTypeIsConstant_spec gv rng with hsame | ⟨idx, it, hit, helig, hset, hguard⟩
      · rw [hsame, hi] at hitem2
        injection hitem2 with hitem2
        subst hitem2
        exact hnz
      · by_cases hEq : idx = i
        · subst hEq
          rw [hi] at hit
          injection hit with hit
          subst hit
          have hlen : idx < gv.length := by
            rcases List.get?_eq_some.mp hi with ⟨hl, -⟩
            exact hl
          rw [hset, List.get?_set_eq_of_lt _ hlen] at hitem2
          injection hitem2 with hitem2
          subst hitem2
          exact hguard hdiv
        · rw [hset, List.get?_set_ne _ _ hEq, hi] at hitem2
          injection hitem2 with hitem2
          subst hitem2
          exact hnz

/-- A `mov $0,1` row protected by the `mutation_locked` flag: not an
eligible row for any constant operator. -/
def lockedRow : GenomeItem :=
  { GenomeItem.new InstructionId.move RegisterType.direct 0 ParameterType.constant 1 with
      mutationLocked := true }

/-- Witness for C7 at a concrete input: a locked row survives both
constant operators untouched. -/
theorem incDecConstant_lock_and_divisor_invariant_witness :
    (incrementSourceValueWhereTypeIsConstant [lockedRow] [2]).2.1.get? 0 = some lockedRow ∧
      (decrementSourceValueWhereTypeIsConstant [lockedRow] [2]).2.1.get? 0 = some lockedRow :=
  (incDecConstant_lock_and_divisor_invariant [lockedRow] [2] 0 lockedRow rfl).1 rfl

/-- Witness for C6 at a concrete input: a genome whose only row is
locked has no eligible row, and all three cited operators return `false`
with the genome unchanged. -/
theorem mutationOperator_noop_contract_witness :
    incrementSourceValueWhereTypeIsConstant [lockedRow] [4] = (false, [lockedRow], [4]) ∧
      decrementSourceValueWhereTypeIsConstant [lockedRow] [4] = (false, [lockedRow], [4]) ∧
      replaceSourceConstantWithHistogram mutateStubContext [lockedRow] [4] =
        (false, [lockedRow], [4]) :=
  (mutationOperator_noop_contract [lockedRow] [4] mutateStubContext).1 (by decide)

/-! ## Batch scheduler
(`src/rust_project/loda-rust-cli/src/arc/traverse_programs_and_models.rs`)

`BatchPlan::run_one_batch` iterates the unsolved puzzles (outer loop) and
the candidate programs (inner loop).  Each (puzzle, candidate) evaluation
is one call of `run_program_runner`; its observable result — the error
flag, the per-case counts, and whether `save_solution` would fail — is an
oracle value indexed by the pair.  The wall clock is an oracle indexed by
the number of deadline checks performed so far.  Progress bars, status
prints and file contents carry no scheduler state and are omitted. -/

/-- The observable result of evaluating one (puzzle, candidate) pair. -/
structure CandidateOutcome where
  runFailed : Bool
  trainCorrect : Nat
  trainIncorrect : Nat
  testEmpty : Nat
  saveFailed : Bool
deriving DecidableEq, Repr

/-- How `run_one_batch` classifies one evaluation, following the exact
order of its checks. -/
inductive CandidateClassification
  | noMatch
  | dangerousFalsePositive
  | partialMatch
  | possibleSolution
deriving DecidableEq, Repr

/-- The classification checks of `run_one_batch` in source order: no
training pair correct → no match; any empty test output → dangerous
false positive ("copies the expected output to the actual output"); any
incorrect training pair → partial match; otherwise a possible solution
that `save_solution` is called on. -/
def classifyCandidate (oc : CandidateOutcome) : CandidateClassification :=
  if oc.trainCorrect == 0 then CandidateClassification.noMatch
  else if 0 < oc.testEmpty then CandidateClassification.dangerousFalsePositive
  else if 0 < oc.trainIncorrect then CandidateClassification.partialMatch
  else CandidateClassification.possibleSolution

/-- Oracles for one competition run: the wall-clock budget, the elapsed
time observed at each deadline check, the outcome of each evaluation,
and the candidate pool generated for each mutation round. -/
structure ArcEnv where
  executeTimeLimit : Nat
  elapsed : Nat → Nat
  outcome : Nat → Nat → CandidateOutcome
  candidates : Nat → List Nat

/-- The scheduler state threaded through one batch: completed
executions, saved solutions, puzzles marked solved, and the
`terminate_due_to_timeout` flag. -/
structure BatchTrace where
  executed : List (Nat × Nat)
  saved : List (Nat × Nat)
  removedModels : List Nat
  timeout : Bool
deriving DecidableEq, Repr

/-- The inner candidate loop of `run_one_batch` for one puzzle `m`:
check the deadline, then run one candidate to completion, classify it,
and either continue, or save the solution and break.  Returns the trace
and the updated check counter. -/
def candidateLoop (env : ArcEnv) (m : Nat) :
    List Nat → Nat → BatchTrace → BatchTrace × Nat
  | [], step, tr => (tr, step)
  | c :: rest, step, tr =>
      if env.executeTimeLimit ≤ env.elapsed step then
        ({ tr with timeout := true }, step)
      else
        let oc := env.outcome m c
        let tr1 := { tr with executed := tr.executed ++ [(m, c)] }
        if oc.runFailed then candidateLoop env m rest (step + 1) tr1
        else
          match classifyCandidate oc with
          | CandidateClassification.possibleSolution =>
              if oc.saveFailed then candidateLoop env m rest (step + 1) tr1
              else
                ({ tr1 with
                    saved := tr1.saved ++ [(m, c)],
                    removedModels := tr1.removedModels ++ [m] },
                 step + 1)
          | _ => candidateLoop env m rest (step + 1) tr1

/-- The outer puzzle loop of `run_one_batch`: a timeout inside the
candidate loop returns from the whole batch at once. -/
def modelsLoop (env : ArcEnv) :
    List Nat → List Nat → Nat → BatchTrace → BatchTrace × Nat
  | [], _, step, tr => (tr, step)
  | m :: ms, cands, step, tr =>
      let inner := candidateLoop env m cands step tr
      if inner.1.timeout then inner
      else modelsLoop env ms cands inner.2 inner.1

/-- State of `run_arc_competition`'s main loop. -/
structure CompetitionState where
  unsolved : List Nat
  trace : BatchTrace
  step : Nat
  mutationRounds : Nat
deriving Repr

/-- The main loop of `run_arc_competition`: stop when every puzzle is
solved or the timeout flag is set; otherwise create one round of mutated
candidates, run one batch, remove solved puzzles, and repeat.  `fuel`
bounds the recursion; the stopping conditions themselves are checked
first, exactly as in the source. -/
def competitionLoop (env : ArcEnv) : Nat → CompetitionState → CompetitionState
  | 0, st => st
  | fuel + 1, st =>
      if st.unsolved.isEmpty then st
      else if st.trace.timeout then st
      else
        let batch := modelsLoop env st.unsolved (env.candidates st.mutationRounds)
          st.step st.trace
        competitionLoop env fuel
          { unsolved := st.unsolved.filter (fun m => !batch.1.removedModels.contains m)
            trace := batch.1
            step := batch.2
            mutationRounds := st.mutationRounds + 1 }

/-- Executions already recorded stay recorded through the candidate
loop. -/
theorem candidateLoop_executed_monotone (env : ArcEnv) (m : Nat) :
    ∀ (cands : List Nat) (step : Nat) (tr : BatchTrace) (p : Nat × Nat),
      p ∈ tr.executed → p ∈ (candidateLoop env m cands step tr).1.executed := by
  intro cands
  induction cands with
  | nil => intro step tr p hp; exact hp
  | cons c rest ih =>
      intro step tr p hp
      unfold candidateLoop
      split
      · exact hp
      · dsimp only
        split
        · exact ih _ _ p (by simp [hp])
        · split
          · split
            · exact ih _ _ p (by simp [hp])
            · simp [hp]
          · exact ih _ _ p (by simp [hp])

/-- Solutions recorded by the candidate loop all passed the full-match
classification. -/
theorem candidateLoop_saved_classified (env : ArcEnv) (m : Nat) :
    ∀ (cands : List Nat) (step : Nat) (tr : BatchTrace),
      (∀ p ∈ tr.saved,
        classifyCandidate (env.outcome p.1 p.2) = CandidateClassification.possibleSolution) →
      ∀ p ∈ (candidateLoop env m cands step tr).1.saved,
        classifyCandidate (env.outcome p.1 p.2) = CandidateClassification.possibleSolution := by
  intro cands
  induction cands with
  | nil => intro step tr hinv; exact hinv
  | cons c rest ih =>
      intro step tr hinv
      unfold candidateLoop
      split
      · exact hinv
      · dsimp only
        split
        · exact ih _ _ hinv
        · split
          · split
            · exact ih _ _ hinv
            · rename_i hclass hsave
              intro p hp
              simp only [List.mem_append, List.mem_singleton] at hp
              rcases hp with hp | hp
              · exact hinv p hp
              · subst hp
                exact hclass
          · exact ih _ _ hinv

/-- C8: a candidate is classified as a possible solution exactly when
every required (training) case passes and no test output is empty; any
candidate with an empty test output is the "dangerous false positive"
rejection; and every solution saved anywhere in a batch passed that
classification, so a dangerous false positive is never saved. -/
theorem batchClassification_sound :
    (∀ oc : CandidateOutcome,
      (classifyCandidate oc = CandidateClassification.possibleSolution ↔
        oc.trainCorrect ≠ 0 ∧ oc.testEmpty = 0 ∧ oc.trainIncorrect = 0) ∧
      (0 < oc.testEmpty →
        classifyCandidate oc ≠ CandidateClassification.possibleSolution)) ∧
    (∀ (env : ArcEnv) (ms cands : List Nat) (step : Nat) (tr : BatchTrace),
      (∀ p ∈ tr.saved,
        classifyCandidate (env.outcome p.1 p.2) = CandidateClassification.possibleSolution) →
      ∀ p ∈ (modelsLoop env ms cands step tr).1.saved,
        classifyCandidate (env.outcome p.1 p.2) = CandidateClassification.possibleSolution) := by
  constructor
  · intro oc
    constructor
    · unfold classifyCandidate
      repeat' split
      all_goals simp_all [beq_iff_eq]
      all_goals omega
    · intro hempty hclass
      unfold classifyCandidate at hclass
      repeat' split at hclass
      all_goals simp_all
  · intro env ms
    induction ms with
    | nil => intro cands step tr hinv; exact hinv
    | cons m rest ih =>
        intro cands step tr hinv
        unfold modelsLoop
        dsimp only
        split
        · exact candidateLoop_saved_classified env m cands step tr hinv
        · exact ih cands _ _ (candidateLoop_saved_classified env m cands step tr hinv)

/-- An empty batch trace, as at the start of a competition. -/
def emptyTrace : BatchTrace :=
  { executed := [], saved := [], removedModels := [], timeout := false }

/-- A demonstration environment: ample time budget, and every evaluation
passes all three training pairs with no empty test output. -/
def arcEnvDemo : ArcEnv :=
  { executeTimeLimit := 100
    elapsed := fun n => n
    outcome := fun _ _ =>
      { runFailed := false, trainCorrect := 3, trainIncorrect := 0, testEmpty := 0,
        saveFailed := false }
    candidates := fun _ => [0] }

/-- Witness for C8 at a concrete input: the solution saved by a concrete
batch passed the possible-solution classification. -/
theorem batchClassification_sound_witness :
    classifyCandidate (arcEnvDemo.outcome 0 0) = CandidateClassification.possibleSolution :=
  batchClassification_sound.2 arcEnvDemo [0] [0] 0 emptyTrace
    (by intro p hp; simp [emptyTrace] at hp) (0, 0) (by decide)

/-- C9: the competition loop stops, starting no further mutation round,
exactly at its two stopping conditions (unsolved set empty, or the
timeout flag raised by a deadline check); the deadline is consulted only
between (puzzle, candidate) executions — a failed check prevents the next
execution from starting, and a passed check lets the execution run to
completion no matter what the clock does afterwards. -/
theorem schedulerTermination_conditions :
    (∀ (env : ArcEnv) (fuel : Nat) (st : CompetitionState),
      st.unsolved = [] → competitionLoop env fuel st = st) ∧
    (∀ (env : ArcEnv) (fuel : Nat) (st : CompetitionState),
      st.trace.timeout = true → competitionLoop env fuel st = st) ∧
    (∀ (env : ArcEnv) (m c : Nat) (rest : List Nat) (step : Nat) (tr : BatchTrace),
      env.executeTimeLimit ≤ env.elapsed step →
      candidateLoop env m (c :: rest) step tr = ({ tr with timeout := true }, step)) ∧
    (∀ (env : ArcEnv) (m c : Nat) (rest : List Nat) (step : Nat) (tr : BatchTrace),
      env.elapsed step < env.executeTimeLimit →
      (m, c) ∈ (candidateLoop env m (c :: rest) step tr).1.executed) := by
  refine ⟨?_, ?_, ?_, ?_⟩
  · intro env fuel st h
    cases fuel with
    | zero => rfl
    | succ f =>
        unfold competitionLoop
        rw [if_pos (by simp [h])]
  · intro env fuel st h
    cases fuel with
    | zero => rfl
    | succ f =>
        unfold competitionLoop
        simp [h]
  · intro env m c rest step tr h
    unfold candidateLoop
    rw [if_pos h]
  · intro env m c rest step tr h
    unfold candidateLoop
    rw [if_neg (Nat.not_le.mpr h)]
    dsimp only
    split
    · exact candidateLoop_executed_monotone env m rest (step + 1) _ (m, c) (by simp)
    · split
      · split
        · exact candidateLoop_executed_monotone env m rest (step + 1) _ (m, c) (by simp)
        · simp
      · exact candidateLoop_executed_monotone env m rest (step + 1) _ (m, c) (by simp)

/-- Witness for C9 at concrete inputs: an expired clock stops the batch
before the next execution, and an in-budget check lets the execution
complete. -/
theorem schedulerTermination_conditions_witness :
    candidateLoop
        { executeTimeLimit := 0, elapsed := fun n => n,
          outcome := arcEnvDemo.outcome, candidates := fun _ => [0] }
        0 [0] 0 emptyTrace = ({ emptyTrace with timeout := true }, 0) ∧
      (0, 0) ∈ (candidateLoop arcEnvDemo 0 [0] 0 emptyTrace).1.executed :=
  ⟨schedulerTermination_conditions.2.2.1
      { executeTimeLimit := 0, elapsed := fun n => n,
        outcome := arcEnvDemo.outcome, candidates := fun _ => [0] }
      0 0 [] 0 emptyTrace (by decide),
   schedulerTermination_conditions.2.2.2 arcEnvDemo 0 0 [] 0 emptyTrace (by decide)⟩

/-! ## Inlining a Call-by-ID (`Genome::mutate_inline_seq`) and the
virtual machine that runs mined programs

The VM that executes genome-derived programs (the `execute` module of
`loda-rust-core`) is mostly absent from this snapshot, so its semantics
are modelled from the spec: registers hold integers, operands resolve
Direct/Indirect addressing ("read the value at the index, then use that
as the address"; an unresolvable address is a failure), arithmetic is
pure with `DivisionByZero` as a reported failure, and Call-by-ID runs the
resolved program on a fresh state whose register 0 receives the caller's
designated in/out register and is copied back afterwards.  The model
fixes call depth 1 (a callee may not itself call) and leaves loops and
the more exotic opcodes out of scope: they evaluate to a failure. -/

/-- The register file of the mined-program VM: unbounded, integer
valued. -/
def RegFile : Type := Nat → Int

/-- Write one register. -/
def updReg (s : RegFile) (i : Nat) (v : Int) : RegFile :=
  fun j => if j = i then v else s j

/-- Resolve the source operand to a value. -/
def readSource (item : GenomeItem) (s : RegFile) : Option Int :=
  match item.sourceType with
  | ParameterType.constant => some item.sourceValue
  | ParameterType.direct =>
      if item.sourceValue < 0 then none else some (s item.sourceValue.toNat)
  | ParameterType.indirect =>
      if item.sourceValue < 0 then none
      else
        let a := s item.sourceValue.toNat
        if a < 0 then none else some (s a.toNat)

/-- Resolve the target operand to a register address. -/
def readTargetAddr (item : GenomeItem) (s : RegFile) : Option Nat :=
  match item.targetType with
  | RegisterType.direct =>
      if item.targetValue < 0 then none else some item.targetValue.toNat
  | RegisterType.indirect =>
      if item.targetValue < 0 then none
      else
        let a := s item.targetValue.toNat
        if a < 0 then none else some a.toNat

/-- Pure semantics of the straight-line opcodes on (target value, source
value); `none` is a reported failure (division by zero, or an opcode
outside the modelled scope). -/
def applyOp (iid : InstructionId) (t src : Int) : Option Int :=
  match iid with
  | InstructionId.move => some src
  | InstructionId.add => some (t + src)
  | InstructionId.subtract => some (t - src)
  | InstructionId.multiply => some (t * src)
  | InstructionId.divide => if src = 0 then none else some (t / src)
  | InstructionId.divideIf =>
      if src = 0 then none
      else if t % src = 0 then some (t / src) else some t
  | InstructionId.modulo => if src = 0 then none else some (t % src)
  | InstructionId.compare => some (if t = src then 1 else 0)
  | InstructionId.min => some (Min.min t src)
  | InstructionId.max => some (Max.max t src)
  | _ => none

/-- The opcodes `applyOp` models. -/
def plainOpOk (iid : InstructionId) : Bool :=
  match iid with
  | InstructionId.move | InstructionId.add | InstructionId.subtract
  | InstructionId.multiply | InstructionId.divide | InstructionId.divideIf
  | InstructionId.modulo | InstructionId.compare | InstructionId.min
  | InstructionId.max => true
  | _ => false

/-- Execute one straight-line row. -/
def execPlainItem (item : GenomeItem) (s : RegFile) : Option RegFile :=
  match readTargetAddr item s with
  | none => none
  | some addr =>
      match readSource item s with
      | none => none
      | some src =>
          match applyOp item.instructionId (s addr) src with
          | none => none
          | some v => some (updReg s addr v)

/-- One step of the call-free executor: a disabled row is skipped (it is
elided when a genome converts to a program). -/
def execStraightItem (item : GenomeItem) (s : RegFile) : Option RegFile :=
  if !item.enabled then some s else execPlainItem item s

/-- Execute a call-free row list. -/
def execStraight : List GenomeItem → RegFile → Option RegFile
  | [], s => some s
  | item :: rest, s => (execStraightItem item s).bind (execStraight rest)

/-- One step of the full executor: a `seq` row resolves its callee
through `loader` and runs it (call-free) on a fresh state whose register
0 holds the caller's in/out register, which receives the callee's
register 0 afterwards. -/
def execTopItem (loader : Int → Option (List GenomeItem)) (item : GenomeItem)
    (s : RegFile) : Option RegFile :=
  if !item.enabled then some s
  else if item.instructionId == InstructionId.evalSequence then
    (if item.sourceType != ParameterType.constant then none
     else if item.sourceValue < 0 then none
     else if item.targetType != RegisterType.direct then none
     else if item.targetValue < 0 then none
     else
       match loader item.sourceValue with
       | none => none
       | some callee =>
           let inOut := item.targetValue.toNat
           let callState : RegFile := fun j => if j = 0 then s inOut else 0
           match execStraight callee callState with
           | none => none
           | some c => some (updReg s inOut (c 0)))
  else execPlainItem item s

/-- Execute a row list that may contain `seq` rows. -/
def execTop (loader : Int → Option (List GenomeItem)) :
    List GenomeItem → RegFile → Option RegFile
  | [], s => some s
  | item :: rest, s => (execTopItem loader item s).bind (execTop loader rest)

/-! ### `Genome::mutate_inline_seq` -/

/-- Contribution of one row to `max_register` (the forward loop of the
source, reassociated into a fold over row maxima). -/
def itemMaxRegister (item : GenomeItem) : Nat :=
  Nat.max
    (if item.enabled && item.targetType == RegisterType.direct &&
        decide (0 ≤ item.targetValue) then item.targetValue.toNat else 0)
    (if item.enabled && item.sourceType == ParameterType.direct &&
        decide (0 ≤ item.sourceValue) then item.sourceValue.toNat else 0)

/-- `max_register` of `mutate_inline_seq`: the highest register any
enabled row of the caller addresses directly. -/
def maxRegisterOf (gv : List GenomeItem) : Nat :=
  gv.foldr (fun item acc => Nat.max (itemMaxRegister item) acc) 0

/-- The positive registers one callee row addresses directly. -/
def itemMentioned (item : GenomeItem) : List Nat :=
  (if item.targetType == RegisterType.direct && decide (0 < item.targetValue) then
    [item.targetValue.toNat] else []) ++
  (if item.sourceType == ParameterType.direct && decide (0 < item.sourceValue) then
    [item.sourceValue.toNat] else [])

/-- All positive registers the callee addresses directly — the
`clear_register_indexes` set of the source before offsetting.  The
source iterates a `HashSet` in unspecified order; first-occurrence order
is the canonical choice here (the clears commute). -/
def mentionedRegisters (callee : List GenomeItem) : List Nat :=
  ((callee.map itemMentioned).join).dedup

/-- One prepended `mov $r,0` row clearing a freshly introduced
register. -/
def mkClearRow (r : Nat) : GenomeItem :=
  GenomeItem.new InstructionId.move RegisterType.direct (r : Int) ParameterType.constant 0

/-- Renumber one callee row: a direct register 0 becomes the caller's
in/out register, a positive direct register is offset past the caller's
used registers; constants and indirect operands are untouched (as in the
source, which handles only `RegisterType::Direct` / `ParameterType::Direct`). -/
def renameItem (offsetBy inOut : Nat) (item : GenomeItem) : GenomeItem :=
  let item1 :=
    if item.targetType == RegisterType.direct then
      (if item.targetValue == 0 then { item with targetValue := (inOut : Int) }
       else if 0 < item.targetValue then
         { item with targetValue := item.targetValue + (offsetBy : Int) }
       else item)
    else item
  if item1.sourceType == ParameterType.direct then
    (if item1.sourceValue == 0 then { item1 with sourceValue := (inOut : Int) }
     else if 0 < item1.sourceValue then
       { item1 with sourceValue := item1.sourceValue + (offsetBy : Int) }
     else item1)
  else item1

/-- The rows spliced in place of the `seq` row: clears of the freshly
introduced registers, then the renumbered callee. -/
def inlineReplacement (callee : List GenomeItem) (offsetBy inOut : Nat) : List GenomeItem :=
  ((mentionedRegisters callee).map (fun r => mkClearRow (r + offsetBy))) ++
    callee.map (renameItem offsetBy inOut)

/-- Splice the inlined block in place of row `idx`. -/
def inlineAt (gv : List GenomeItem) (idx : Nat) (callee : List GenomeItem)
    (offsetBy inOut : Nat) : List GenomeItem :=
  gv.take idx ++ inlineReplacement callee offsetBy inOut ++ gv.drop (idx + 1)

/-- `Genome::mutate_inline_seq`: pick a `seq` row with a constant
source, load the callee through the dependency manager (an external
loader here), renumber its registers past the caller's, prepend clears
of the fresh registers, and splice the result in place of the call. -/
def mutateInlineSeq (loadProgram : Int → Option (List GenomeItem)) (gv : List GenomeItem)
    (rng : Rng) : Bool × List GenomeItem × Rng :=
  let indexes := eligibleIndexes gv
    (fun item => item.sourceType == ParameterType.constant &&
      item.instructionId == InstructionId.evalSequence)
  if indexes.isEmpty then (false, gv, rng)
  else
    let offsetBy := maxRegisterOf gv
    let index := (chooseIdx indexes rng).1
    let rng1 := (chooseIdx indexes rng).2
    match gv.get? index with
    | none => (false, gv, rng1)
    | some item =>
        if item.instructionId != InstructionId.evalSequence then (false, gv, rng1)
        else if item.sourceType != ParameterType.constant then (false, gv, rng1)
        else if item.sourceValue < 0 then (false, gv, rng1)
        else if item.targetValue < 0 then (false, gv, rng1)
        else
          match loadProgram item.sourceValue with
          | none => (false, gv, rng1)
          | some callee =>
              (true, inlineAt gv index callee offsetBy item.targetValue.toNat, rng1)

/-- A callee row within the scope of the amended claim: enabled, a
modelled straight-line opcode, a direct nonnegative target, and a
constant or direct nonnegative source. -/
def calleeItemOk (item : GenomeItem) : Bool :=
  item.enabled && plainOpOk item.instructionId &&
  item.targetType == RegisterType.direct && decide (0 ≤ item.targetValue) &&
  (item.sourceType == ParameterType.constant ||
    (item.sourceType == ParameterType.direct && decide (0 ≤ item.sourceValue)))

/-- A caller row within the scope of the amended claim: disabled, or a
plain row as above, or a `seq` row with a direct nonnegative target and
a nonnegative constant source. -/
def callerItemOk (item : GenomeItem) : Bool :=
  !item.enabled ||
  (plainOpOk item.instructionId &&
    item.targetType == RegisterType.direct && decide (0 ≤ item.targetValue) &&
    (item.sourceType == ParameterType.constant ||
      (item.sourceType == ParameterType.direct && decide (0 ≤ item.sourceValue)))) ||
  (item.instructionId == InstructionId.evalSequence &&
    item.targetType == RegisterType.direct && decide (0 ≤ item.targetValue) &&
    item.sourceType == ParameterType.constant && decide (0 ≤ item.sourceValue))

/-- Caller of the first C4 counterexample: the single row
`seq $0,42`. -/
def seqRowA : GenomeItem :=
  GenomeItem.new InstructionId.evalSequence RegisterType.direct 0 ParameterType.constant 42

/-- Callee 42: `mov $1,2 / mov $0,$$1` — its indirect source is not
renumbered by `mutate_inline_seq`. -/
def calleeA : List GenomeItem :=
  [GenomeItem.new InstructionId.move RegisterType.direct 1 ParameterType.constant 2,
   GenomeItem.new InstructionId.move RegisterType.direct 0 ParameterType.indirect 1]

/-- Loader resolving program id 42 to `calleeA`. -/
def loaderA : Int → Option (List GenomeItem) :=
  fun pid => if pid = 42 then some calleeA else none

/-- Initial state of the first counterexample: register 2 holds 9. -/
def stateA : RegFile := fun r => if r = 2 then 9 else 0

/-- Caller of the second C4 counterexample: the single row
`seq $0,7`. -/
def seqRowB : GenomeItem :=
  GenomeItem.new InstructionId.evalSequence RegisterType.direct 0 ParameterType.constant 7

/-- Callee 7: `add $1,1` — inlining maps its register 1 to caller
register 1 + max_register = 1 and clears it. -/
def calleeB : List GenomeItem :=
  [GenomeItem.new InstructionId.add RegisterType.direct 1 ParameterType.constant 1]

/-- Loader resolving program id 7 to `calleeB`. -/
def loaderB : Int → Option (List GenomeItem) :=
  fun pid => if pid = 7 then some calleeB else none

/-- Initial state of the second counterexample: register 1 holds 7. -/
def stateB : RegFile := fun r => if r = 1 then 7 else 0

/-- C4 counterexample.  Two concrete runs of `mutate_inline_seq` produce
programs that are observably different from the original.  First run: an
indirect operand in the callee is not renumbered, so the inlined program
reads the caller's register 2 (value 9) where the `seq` run reads the
callee's fresh register 2 (value 0), and the divergence shows up in the
`seq` target register `$0` itself.  Second run: a clear of a freshly
introduced register (register 1 = 1 + max_register 0) overwrites caller
data that the `seq` execution leaves untouched. -/
theorem mutateInlineSeq_changes_behavior :
    mutateInlineSeq loaderA [seqRowA] [0] = (true, inlineAt [seqRowA] 0 calleeA 0 0, []) ∧
      (execTop loaderA (inlineAt [seqRowA] 0 calleeA 0 0) stateA).map (fun t => t 0) = some 9 ∧
      (execTop loaderA [seqRowA] stateA).map (fun t => t 0) = some 0 ∧
      mutateInlineSeq loaderB [seqRowB] [0] = (true, inlineAt [seqRowB] 0 calleeB 0 0, []) ∧
      (execTop loaderB (inlineAt [seqRowB] 0 calleeB 0 0) stateB).map (fun t => t 1) = some 1 ∧
      (execTop loaderB [seqRowB] stateB).map (fun t => t 1) = some 7 := by
  refine ⟨?_, ?_, ?_, ?_, ?_, ?_⟩ <;> decide

/-! ### Toolbox for the inlining equivalence proof -/

/-- Splitting a list at a valid index. -/
theorem list_eq_take_cons_drop {α : Type} :
    ∀ (l : List α) (i : Nat) (a : α), l.get? i = some a →
      l = l.take i ++ a :: l.drop (i + 1) := by
  intro l
  induction l with
  | nil => intro i a h; cases h
  | cons x xs ih =>
      intro i a h
      cases i with
      | zero =>
          injection h with h
          subst h
          rfl
      | succ j =>
          have := ih j a h
          simpa using congrArg (fun t => x :: t) this

/-- Every row's register maximum is below the caller's
`max_register`. -/
theorem itemMaxRegister_le_maxRegisterOf :
    ∀ (gv : List GenomeItem) (item : GenomeItem), item ∈ gv →
      itemMaxRegister item ≤ maxRegisterOf gv := by
  intro gv
  induction gv with
  | nil => intro item h; cases h
  | cons x xs ih =>
      intro item h
      rcases List.mem_cons.mp h with h | h
      · subst h
        exact Nat.le_max_left _ _
      · exact Nat.le_trans (ih item h) (Nat.le_max_right _ _)

/-- An enabled row's direct target register is below `max_register`. -/
theorem targetReg_le_maxRegisterOf {gv : List GenomeItem} {item : GenomeItem}
    (h : item ∈ gv) (he : item.enabled = true) (ht : item.targetType = RegisterType.direct)
    (hv : 0 ≤ item.targetValue) : item.targetValue.toNat ≤ maxRegisterOf gv := by
  refine Nat.le_trans ?_ (itemMaxRegister_le_maxRegisterOf gv item h)
  unfold itemMaxRegister
  rw [he, ht]
  simp [hv]

/-- An enabled row's direct source register is below `max_register`. -/
theorem sourceReg_le_maxRegisterOf {gv : List GenomeItem} {item : GenomeItem}
    (h : item ∈ gv) (he : item.enabled = true) (hs : item.sourceType = ParameterType.direct)
    (hv : 0 ≤ item.sourceValue) : item.sourceValue.toNat ≤ maxRegisterOf gv := by
  refine Nat.le_trans ?_ (itemMaxRegister_le_maxRegisterOf gv item h)
  unfold itemMaxRegister
  rw [he, hs]
  refine Nat.le_trans ?_ (Nat.le_max_right _ _)
  simp [hv]

/-- `execTop` distributes over list concatenation. -/
theorem execTop_append (loader : Int → Option (List GenomeItem)) :
    ∀ (l1 l2 : List GenomeItem) (s : RegFile),
      execTop loader (l1 ++ l2) s = (execTop loader l1 s).bind (execTop loader l2) := by
  intro l1
  induction l1 with
  | nil => intro l2 s; rfl
  | cons item rest ih =>
      intro l2 s
      show (execTopItem loader item s).bind (execTop loader (rest ++ l2)) =
        ((execTopItem loader item s).bind (execTop loader rest)).bind (execTop loader l2)
      cases execTopItem loader item s with
      | none => rfl
      | some s2 => exact ih l2 s2

/-- A non-`seq` row steps the same under both executors. -/
theorem execTopItem_eq_execStraightItem (loader : Int → Option (List GenomeItem))
    (item : GenomeItem) (s : RegFile)
    (h : item.instructionId ≠ InstructionId.evalSequence) :
    execTopItem loader item s = execStraightItem item s := by
  unfold execTopItem execStraightItem
  split
  · rfl
  · rw [if_neg (by simpa using h)]

/-- On a call-free row list `execTop` agrees with `execStraight`. -/
theorem execTop_eq_execStraight (loader : Int → Option (List GenomeItem)) :
    ∀ (l : List GenomeItem),
      (∀ item ∈ l, item.instructionId ≠ InstructionId.evalSequence) →
      ∀ (s : RegFile), execTop loader l s = execStraight l s := by
  intro l
  induction l with
  | nil => intro _ s; rfl
  | cons item rest ih =>
      intro hof s
      have hitem : item.instructionId ≠ InstructionId.evalSequence :=
        hof item (List.mem_cons_self _ _)
      have hrest : ∀ it ∈ rest, it.instructionId ≠ InstructionId.evalSequence :=
        fun it hit => hof it (List.mem_cons_of_mem _ hit)
      show (execTopItem loader item s).bind (execTop loader rest) =
        (execStraightItem item s).bind (execStraight rest)
      rw [execTopItem_eq_execStraightItem loader item s hitem]
      cases execStraightItem item s with
      | none => rfl
      | some s2 => exact ih hrest s2

/-- The register renaming `mutate_inline_seq` applies to the callee:
register 0 becomes the caller's in/out register, anything else is moved
past the caller's used registers. -/
def renameReg (offsetBy inOut k : Nat) : Nat :=
  if k = 0 then inOut else k + offsetBy

/-- Simulation relation between the caller state `t` running the inlined
block and the callee state `c` of the `seq` execution: the in/out
register mirrors the callee's register 0, the offset images of the
callee's mentioned registers mirror those registers, and everything else
still holds its value from the state `base` in which the block
started. -/
def simRel (offsetBy inOut : Nat) (ms : List Nat) (base t c : RegFile) : Prop :=
  t inOut = c 0 ∧ (∀ k ∈ ms, t (k + offsetBy) = c k) ∧
  (∀ r, r ≠ inOut → (∀ k ∈ ms, r ≠ k + offsetBy) → t r = base r)

/-- The registers a callee row addresses are tracked by `ms`. -/
def itemRegsIn (ms : List Nat) (item : GenomeItem) : Prop :=
  (0 < item.targetValue → item.targetValue.toNat ∈ ms) ∧
  (item.sourceType = ParameterType.direct → 0 < item.sourceValue →
    item.sourceValue.toNat ∈ ms)

/-- Every mentioned register is positive. -/
theorem mentionedRegisters_pos (callee : List GenomeItem) :
    ∀ k ∈ mentionedRegisters callee, 0 < k := by
  intro k hk
  unfold mentionedRegisters at hk
  rw [List.mem_dedup, List.mem_join] at hk
  obtain ⟨l, hl, hkl⟩ := hk
  rw [List.mem_map] at hl
  obtain ⟨item, -, rfl⟩ := hl
  unfold itemMentioned at hkl
  rw [List.mem_append] at hkl
  rcases hkl with h | h <;> split at h <;>
    simp_all <;> omega

/-- A direct-addressed callee row's registers are mentioned. -/
theorem itemRegsIn_mentioned (callee : List GenomeItem) (item : GenomeItem)
    (hmem : item ∈ callee) (ht : item.targetType = RegisterType.direct) :
    itemRegsIn (mentionedRegisters callee) item := by
  constructor
  · intro hpos
    unfold mentionedRegisters
    rw [List.mem_dedup, List.mem_join]
    refine ⟨itemMentioned item, List.mem_map_of_mem itemMentioned hmem, ?_⟩
    unfold itemMentioned
    rw [List.mem_append]
    left
    rw [ht]
    simp [hpos]
  · intro hs hpos
    unfold mentionedRegisters
    rw [List.mem_dedup, List.mem_join]
    refine ⟨itemMentioned item, List.mem_map_of_mem itemMentioned hmem, ?_⟩
    unfold itemMentioned
    rw [List.mem_append]
    right
    rw [hs]
    simp [hpos]

/-- `renameItem` keeps the opcode. -/
theorem renameItem_instructionId (offsetBy inOut : Nat) (item : GenomeItem) :
    (renameItem offsetBy inOut item).instructionId = item.instructionId := by
  unfold renameItem
  repeat' first
    | split
    | (dsimp only; split)
  all_goals (try dsimp only)
  all_goals rfl

/-- `renameItem` keeps the enabled flag. -/
theorem renameItem_enabled (offsetBy inOut : Nat) (item : GenomeItem) :
    (renameItem offsetBy inOut item).enabled = item.enabled := by
  unfold renameItem
  repeat' first
    | split
    | (dsimp only; split)
  all_goals (try dsimp only)
  all_goals rfl

/-- `renameItem` keeps the target addressing mode. -/
theorem renameItem_targetType (offsetBy inOut : Nat) (item : GenomeItem) :
    (renameItem offsetBy inOut item).targetType = item.targetType := by
  unfold renameItem
  repeat' first
    | split
    | (dsimp only; split)
  all_goals (try dsimp only)
  all_goals rfl

/-- `renameItem` keeps the source type. -/
theorem renameItem_sourceType (offsetBy inOut : Nat) (item : GenomeItem) :
    (renameItem offsetBy inOut item).sourceType = item.sourceType := by
  unfold renameItem
  repeat' first
    | split
    | (dsimp only; split)
  all_goals (try dsimp only)
  all_goals rfl

/-- The renumbered target register of a direct, nonnegative target. -/
theorem renameItem_targetValue (offsetBy inOut : Nat) (item : GenomeItem)
    (ht : item.targetType = RegisterType.direct) (htv : 0 ≤ item.targetValue) :
    (renameItem offsetBy inOut item).targetValue =
      (if item.targetValue = 0 then (inOut : Int) else item.targetValue + (offsetBy : Int)) := by
  unfold renameItem
  repeat' first
    | split
    | (dsimp only; split)
  all_goals (try simp_all)
  all_goals omega

/-- A constant source is untouched by the renumbering. -/
theorem renameItem_sourceValue_const (offsetBy inOut : Nat) (item : GenomeItem)
    (hs : item.sourceType = ParameterType.constant) :
    (renameItem offsetBy inOut item).sourceValue = item.sourceValue := by
  unfold renameItem
  repeat' first
    | split
    | (dsimp only; split)
  all_goals simp_all

/-- The renumbered source register of a direct, nonnegative source. -/
theorem renameItem_sourceValue_direct (offsetBy inOut : Nat) (item : GenomeItem)
    (hs : item.sourceType = ParameterType.direct) (hsv : 0 ≤ item.sourceValue) :
    (renameItem offsetBy inOut item).sourceValue =
      (if item.sourceValue = 0 then (inOut : Int) else item.sourceValue + (offsetBy : Int)) := by
  unfold renameItem
  repeat' first
    | split
    | (dsimp only; split)
  all_goals (try simp_all)
  all_goals omega

/-- Reading through the renaming preserves the simulated value. -/
theorem simRel_read {offsetBy inOut : Nat} {ms : List Nat} {base t c : RegFile}
    (hsim : simRel offsetBy inOut ms base t c) (k : Nat) (hk : k = 0 ∨ k ∈ ms) :
    t (renameReg offsetBy inOut k) = c k := by
  rcases hk with rfl | hk
  · simpa [renameReg] using hsim.1
  · have := hsim.2.1 k hk
    unfold renameReg
    split
    · rename_i h; subst h; simpa using hsim.1
    · exact this

/-- Writing the same value through the renaming preserves the
simulation relation. -/
theorem simRel_updReg {offsetBy inOut : Nat} {ms : List Nat} {base t c : RegFile}
    (hio : inOut ≤ offsetBy) (hpos : ∀ k ∈ ms, 0 < k)
    (hsim : simRel offsetBy inOut ms base t c) (k : Nat) (hk : k = 0 ∨ k ∈ ms) (v : Int) :
    simRel offsetBy inOut ms base
      (updReg t (renameReg offsetBy inOut k) v) (updReg c k v) := by
  obtain ⟨h1, h2, h3⟩ := hsim
  refine ⟨?_, ?_, ?_⟩
  · unfold updReg renameReg
    rcases hk with rfl | hk
    · simp
    · have hkpos := hpos k hk
      have e1 : ¬ inOut = (if k = 0 then inOut else k + offsetBy) := by
        rw [if_neg (by omega)]
        omega
      rw [if_neg e1, if_neg (by omega : ¬ (0:Nat) = k)]
      exact h1
  · intro m hm
    have hmpos := hpos m hm
    unfold updReg renameReg
    rcases hk with rfl | hk
    · have e1 : ¬ m + offsetBy = (if (0:Nat) = 0 then inOut else 0 + offsetBy) := by
        simp
        omega
      rw [if_neg e1, if_neg (by omega : ¬ m = 0)]
      exact h2 m hm
    · have hkpos := hpos k hk
      by_cases hmk : m = k
      · subst hmk
        have e1 : m + offsetBy = (if m = 0 then inOut else m + offsetBy) := by
          rw [if_neg (by omega)]
        rw [if_pos e1, if_pos rfl]
      · have e1 : ¬ m + offsetBy = (if k = 0 then inOut else k + offsetBy) := by
          rw [if_neg (by omega)]
          omega
        rw [if_neg e1, if_neg hmk]
        exact h2 m hm
  · intro r hr1 hr2
    unfold updReg renameReg
    rcases hk with rfl | hk
    · have e1 : ¬ r = (if (0:Nat) = 0 then inOut else 0 + offsetBy) := by
        simp
        exact hr1
      rw [if_neg e1]
      exact h3 r hr1 hr2
    · have hkpos := hpos k hk
      have e1 : ¬ r = (if k = 0 then inOut else k + offsetBy) := by
        rw [if_neg (by omega)]
        exact hr2 k hk
      rw [if_neg e1]
      exact h3 r hr1 hr2

/-- One renamed callee row simulates the original row: both fail
together, or both succeed with the simulation relation preserved. -/
theorem execPlainItem_renamed_sim
    (offsetBy inOut : Nat) (hio : inOut ≤ offsetBy) (ms : List Nat)
    (hpos : ∀ k ∈ ms, 0 < k)
    (item : GenomeItem) (hok : calleeItemOk item = true)
    (hregs : itemRegsIn ms item)
    (base t c : RegFile) (hsim : simRel offsetBy inOut ms base t c) :
    (execPlainItem (renameItem offsetBy inOut item) t = none ∧
      execPlainItem item c = none) ∨
    (∃ t2 c2, execPlainItem (renameItem offsetBy inOut item) t = some t2 ∧
      execPlainItem item c = some c2 ∧ simRel offsetBy inOut ms base t2 c2) := by
  have hok' := hok
  unfold calleeItemOk at hok'
  simp only [Bool.and_eq_true, Bool.or_eq_true, beq_iff_eq, decide_eq_true_eq] at hok'
  obtain ⟨⟨⟨⟨hen, hplain⟩, htt⟩, htv⟩, hsrc⟩ := hok'
  have haddrC : readTargetAddr item c = some item.targetValue.toNat := by
    unfold readTargetAddr
    rw [htt]
    rw [if_neg (not_lt.mpr htv)]
  have haddrT : readTargetAddr (renameItem offsetBy inOut item) t =
      some (renameReg offsetBy inOut item.targetValue.toNat) := by
    simp only [readTargetAddr, renameItem_targetType, htt,
      renameItem_targetValue _ _ _ htt htv, renameReg]
    by_cases h0 : item.targetValue = 0
    · have h2 : item.targetValue.toNat = 0 := by omega
      simp [h0, h2]
    · have h1 : ¬ (item.targetValue + (offsetBy : Int) < 0) := by omega
      have h2 : ¬ item.targetValue.toNat = 0 := by omega
      simp only [if_neg h0, if_neg h1, if_neg h2, Option.some.injEq]
      omega
  have htvmem : item.targetValue.toNat = 0 ∨ item.targetValue.toNat ∈ ms := by
    by_cases h0 : item.targetValue = 0
    · left; omega
    · right; exact hregs.1 (by omega)
  obtain ⟨srcv, hsrcT, hsrcC⟩ : ∃ srcv,
      readSource (renameItem offsetBy inOut item) t = some srcv ∧
      readSource item c = some srcv := by
    rcases hsrc with hconst | ⟨hdir, hsv⟩
    · refine ⟨item.sourceValue, ?_, ?_⟩
      · unfold readSource
        rw [renameItem_sourceType, hconst, renameItem_sourceValue_const _ _ _ hconst]
      · unfold readSource
        rw [hconst]
    · have hsvmem : item.sourceValue.toNat = 0 ∨ item.sourceValue.toNat ∈ ms := by
        by_cases h0 : item.sourceValue = 0
        · left; omega
        · right; exact hregs.2 hdir (by omega)
      refine ⟨c item.sourceValue.toNat, ?_, ?_⟩
      · unfold readSource
        rw [renameItem_sourceType, hdir, renameItem_sourceValue_direct _ _ _ hdir hsv]
        by_cases h0 : item.sourceValue = 0
        · have h2 : ((inOut : Int)).toNat = renameReg offsetBy inOut item.sourceValue.toNat := by
            unfold renameReg
            rw [if_pos (by omega : item.sourceValue.toNat = 0)]
            omega
          rw [if_pos h0, if_neg (by omega : ¬ ((inOut : Int) < 0)), h2,
            simRel_read hsim _ hsvmem]
        · have h2 : (item.sourceValue + (offsetBy : Int)).toNat =
              renameReg offsetBy inOut item.sourceValue.toNat := by
            unfold renameReg
            rw [if_neg (by omega : ¬ item.sourceValue.toNat = 0)]
            omega
          rw [if_neg h0, if_neg (by omega : ¬ (item.sourceValue + (offsetBy : Int) < 0)), h2,
            simRel_read hsim _ hsvmem]
      · unfold readSource
        rw [hdir]
        rw [if_neg (not_lt.mpr hsv)]
  have htold : t (renameReg offsetBy inOut item.targetValue.toNat) =
      c item.targetValue.toNat := simRel_read hsim _ htvmem
  unfold execPlainItem
  rw [haddrT, haddrC, hsrcT, hsrcC, renameItem_instructionId]
  dsimp only
  rw [htold]
  cases happ : applyOp item.instructionId (c item.targetValue.toNat) srcv with
  | none => exact Or.inl ⟨rfl, rfl⟩
  | some v =>
      exact Or.inr ⟨_, _, rfl, rfl, simRel_updReg hio hpos ⟨hsim.1, hsim.2.1, hsim.2.2⟩ _ htvmem v⟩

/-- A callee row inside the amended claim's scope is enabled. -/
theorem calleeItemOk_enabled {item : GenomeItem} (h : calleeItemOk item = true) :
    item.enabled = true := by
  unfold calleeItemOk at h
  simp only [Bool.and_eq_true] at h
  exact h.1.1.1.1

/-- The renamed callee as a whole simulates the original callee. -/
theorem execStraight_renamed_sim (offsetBy inOut : Nat) (hio : inOut ≤ offsetBy)
    (ms : List Nat) (hpos : ∀ k ∈ ms, 0 < k) :
    ∀ (callee : List GenomeItem),
      (∀ it ∈ callee, calleeItemOk it = true) →
      (∀ it ∈ callee, itemRegsIn ms it) →
      ∀ (base t c : RegFile), simRel offsetBy inOut ms base t c →
      (execStraight (callee.map (renameItem offsetBy inOut)) t = none ∧
        execStraight callee c = none) ∨
      (∃ t2 c2, execStraight (callee.map (renameItem offsetBy inOut)) t = some t2 ∧
        execStraight callee c = some c2 ∧ simRel offsetBy inOut ms base t2 c2) := by
  intro callee
  induction callee with
  | nil => intro _ _ base t c hsim; exact Or.inr ⟨t, c, rfl, rfl, hsim⟩
  | cons item rest ih =>
      intro hok hregs base t c hsim
      have hokItem := hok item (List.mem_cons_self _ _)
      have hen : item.enabled = true := calleeItemOk_enabled hokItem
      have hcons1 : execStraight ((item :: rest).map (renameItem offsetBy inOut)) t =
          (execPlainItem (renameItem offsetBy inOut item) t).bind
            (execStraight (rest.map (renameItem offsetBy inOut))) := by
        show (execStraightItem (renameItem offsetBy inOut item) t).bind _ = _
        unfold execStraightItem
        rw [renameItem_enabled, hen]
        rfl
      have hcons2 : execStraight (item :: rest) c =
          (execPlainItem item c).bind (execStraight rest) := by
        show (execStraightItem item c).bind _ = _
        unfold execStraightItem
        rw [hen]
        rfl
      rcases execPlainItem_renamed_sim offsetBy inOut hio ms hpos item hokItem
          (hregs item (List.mem_cons_self _ _)) base t c hsim with
        ⟨hn1, hn2⟩ | ⟨t2, c2, hs1, hs2, hsim2⟩
      · left
        rw [hcons1, hcons2, hn1, hn2]
        exact ⟨rfl, rfl⟩
      · rw [hcons1, hcons2, hs1, hs2]
        exact ih (fun it h => hok it (List.mem_cons_of_mem _ h))
          (fun it h => hregs it (List.mem_cons_of_mem _ h)) base t2 c2 hsim2

/-- Running the prepended clears zeroes the targeted registers and
leaves everything else alone. -/
theorem execStraight_clears (offsetBy : Nat) :
    ∀ (rs : List Nat) (s : RegFile),
      ∃ t0, execStraight (rs.map (fun r => mkClearRow (r + offsetBy))) s = some t0 ∧
        (∀ k ∈ rs, t0 (k + offsetBy) = 0) ∧
        (∀ r, (∀ k ∈ rs, r ≠ k + offsetBy) → t0 r = s r) := by
  intro rs
  induction rs with
  | nil => intro s; exact ⟨s, rfl, by simp, fun r _ => rfl⟩
  | cons a rest ih =>
      intro s
      have hstep : execStraightItem (mkClearRow (a + offsetBy)) s =
          some (updReg s (a + offsetBy) 0) := by
        unfold execStraightItem mkClearRow GenomeItem.new execPlainItem readTargetAddr
          readSource applyOp
        rw [if_neg (by omega : ¬ (((a + offsetBy : Nat) : Int) < 0))]
        dsimp only
        rw [(by omega : ((a + offsetBy : Nat) : Int).toNat = a + offsetBy)]
        rfl
      obtain ⟨t0, ht0, hzero, hframe⟩ := ih (updReg s (a + offsetBy) 0)
      refine ⟨t0, ?_, ?_, ?_⟩
      · show (execStraightItem (mkClearRow (a + offsetBy)) s).bind _ = some t0
        rw [hstep]
        exact ht0
      · intro k hk
        rcases List.mem_cons.mp hk with rfl | hk
        · by_cases hmem : k ∈ rest
          · exact hzero k hmem
          · have := hframe (k + offsetBy) (by
              intro m hm
              intro hEq
              exact hmem (by
                have : k = m := by omega
                rw [this]; exact hm))
            rw [this]
            unfold updReg
            rw [if_pos rfl]
        · exact hzero k hk
      · intro r hr
        have hra : ∀ k ∈ rest, r ≠ k + offsetBy := fun k hk =>
          hr k (List.mem_cons_of_mem _ hk)
        rw [hframe r hra]
        unfold updReg
        rw [if_neg (hr a (List.mem_cons_self _ _))]

/-- `execStraight` distributes over list concatenation. -/
theorem execStraight_append :
    ∀ (l1 l2 : List GenomeItem) (s : RegFile),
      execStraight (l1 ++ l2) s = (execStraight l1 s).bind (execStraight l2) := by
  intro l1
  induction l1 with
  | nil => intro l2 s; rfl
  | cons item rest ih =>
      intro l2 s
      show (execStraightItem item s).bind (execStraight (rest ++ l2)) =
        ((execStraightItem item s).bind (execStraight rest)).bind (execStraight l2)
      cases execStraightItem item s with
      | none => rfl
      | some s2 => exact ih l2 s2

/-- A modelled straight-line opcode is not the call opcode. -/
theorem plainOpOk_ne_seq {iid : InstructionId} (h : plainOpOk iid = true) :
    iid ≠ InstructionId.evalSequence := by
  intro hEq
  subst hEq
  simp [plainOpOk] at h

/-- A callee row's target addressing is direct within the amended
claim's scope. -/
theorem calleeItemOk_targetDirect {item : GenomeItem} (h : calleeItemOk item = true) :
    item.targetType = RegisterType.direct := by
  unfold calleeItemOk at h
  simp only [Bool.and_eq_true, beq_iff_eq] at h
  exact h.1.1.2

/-- Executing the spliced block (clears then renamed callee) from `s1`
matches the `seq` execution of the callee from a fresh state: both fail
together, and on success the in/out register carries the callee's
result while every other caller register up to `offsetBy` keeps its
value. -/
theorem inlineReplacement_sim (loader : Int → Option (List GenomeItem))
    (callee : List GenomeItem) (offsetBy inOut : Nat) (hio : inOut ≤ offsetBy)
    (hok : ∀ it ∈ callee, calleeItemOk it = true) (s1 : RegFile) :
    (execStraight callee (fun j => if j = 0 then s1 inOut else 0) = none →
      execTop loader (inlineReplacement callee offsetBy inOut) s1 = none) ∧
    (∀ c, execStraight callee (fun j => if j = 0 then s1 inOut else 0) = some c →
      ∃ t2, execTop loader (inlineReplacement callee offsetBy inOut) s1 = some t2 ∧
        t2 inOut = c 0 ∧ ∀ r, r ≤ offsetBy → r ≠ inOut → t2 r = s1 r) := by
  have hpos := mentionedRegisters_pos callee
  have hnoseq : ∀ it ∈ inlineReplacement callee offsetBy inOut,
      it.instructionId ≠ InstructionId.evalSequence := by
    intro it hit
    unfold inlineReplacement at hit
    rw [List.mem_append] at hit
    rcases hit with hit | hit
    · rw [List.mem_map] at hit
      obtain ⟨rr, -, rfl⟩ := hit
      intro hEq
      cases hEq
    · rw [List.mem_map] at hit
      obtain ⟨it0, hit0, rfl⟩ := hit
      rw [renameItem_instructionId]
      have := hok it0 hit0
      unfold calleeItemOk at this
      simp only [Bool.and_eq_true] at this
      exact plainOpOk_ne_seq this.1.1.1.2
  have heq : execTop loader (inlineReplacement callee offsetBy inOut) s1 =
      execStraight (inlineReplacement callee offsetBy inOut) s1 :=
    execTop_eq_execStraight loader _ hnoseq s1
  obtain ⟨t0, ht0, hzero, hframe⟩ := execStraight_clears offsetBy (mentionedRegisters callee) s1
  have hexec : execStraight (inlineReplacement callee offsetBy inOut) s1 =
      execStraight (callee.map (renameItem offsetBy inOut)) t0 := by
    unfold inlineReplacement
    rw [execStraight_append, ht0]
    rfl
  have hsim0 : simRel offsetBy inOut (mentionedRegisters callee) s1 t0
      (fun j => if j = 0 then s1 inOut else 0) := by
    refine ⟨?_, ?_, ?_⟩
    · rw [hframe inOut (fun k hk => by have := hpos k hk; omega)]
      simp
    · intro k hk
      have hk0 := hpos k hk
      rw [hzero k hk]
      have hne : ¬ (k = 0) := by omega
      simp [hne]
    · intro r hr1 hr2
      exact hframe r hr2
  have hregs : ∀ it ∈ callee, itemRegsIn (mentionedRegisters callee) it := fun it h =>
    itemRegsIn_mentioned callee it h (calleeItemOk_targetDirect (hok it h))
  rcases execStraight_renamed_sim offsetBy inOut hio (mentionedRegisters callee) hpos
      callee hok hregs s1 t0 (fun j => if j = 0 then s1 inOut else 0) hsim0 with
    ⟨hn1, hn2⟩ | ⟨t2, c2, hs1, hs2, hsim2⟩
  · constructor
    · intro _
      rw [heq, hexec, hn1]
    · intro c hc
      rw [hn2] at hc
      cases hc
  · constructor
    · intro hc
      rw [hs2] at hc
      cases hc
    · intro c hc
      rw [hs2] at hc
      injection hc with hc
      subst hc
      refine ⟨t2, by rw [heq, hexec, hs1], hsim2.1, ?_⟩
      intro r hr1 hr2
      exact hsim2.2.2 r hr2 (fun k hk => by have := hpos k hk; omega)

/-- A plain caller row steps identically on two states that agree on
the registers up to `M`. -/
theorem execPlainItem_agree (M : Nat) (item : GenomeItem)
    (hplain : plainOpOk item.instructionId = true)
    (htt : item.targetType = RegisterType.direct) (htv : 0 ≤ item.targetValue)
    (hsrc : item.sourceType = ParameterType.constant ∨
      (item.sourceType = ParameterType.direct ∧ 0 ≤ item.sourceValue))
    (htb : item.targetValue.toNat ≤ M)
    (hsb : item.sourceType = ParameterType.direct → item.sourceValue.toNat ≤ M)
    (t t2 : RegFile) (hagree : ∀ r, r ≤ M → t r = t2 r) :
    (execPlainItem item t = none ∧ execPlainItem item t2 = none) ∨
    (∃ u u2, execPlainItem item t = some u ∧ execPlainItem item t2 = some u2 ∧
      ∀ r, r ≤ M → u r = u2 r) := by
  have haddr : readTargetAddr item t = some item.targetValue.toNat := by
    unfold readTargetAddr
    rw [htt, if_neg (not_lt.mpr htv)]
  have haddr2 : readTargetAddr item t2 = some item.targetValue.toNat := by
    unfold readTargetAddr
    rw [htt, if_neg (not_lt.mpr htv)]
  obtain ⟨srcv, hsrc1, hsrc2⟩ : ∃ srcv, readSource item t = some srcv ∧
      readSource item t2 = some srcv := by
    rcases hsrc with hconst | ⟨hdir, hsv⟩
    · exact ⟨item.sourceValue, by unfold readSource; rw [hconst],
        by unfold readSource; rw [hconst]⟩
    · refine ⟨t item.sourceValue.toNat, ?_, ?_⟩
      · unfold readSource
        rw [hdir, if_neg (not_lt.mpr hsv)]
      · unfold readSource
        rw [hdir, if_neg (not_lt.mpr hsv)]
        rw [hagree _ (hsb hdir)]
  unfold execPlainItem
  rw [haddr, haddr2, hsrc1, hsrc2]
  dsimp only
  rw [hagree _ htb]
  cases applyOp item.instructionId (t2 item.targetValue.toNat) srcv with
  | none => exact Or.inl ⟨rfl, rfl⟩
  | some v =>
      refine Or.inr ⟨_, _, rfl, rfl, ?_⟩
      intro r hr
      unfold updReg
      split
      · rfl
      · exact hagree r hr

/-- Two runs of the same row list from states that agree up to `M`
fail together or end in states that agree up to `M`. -/
theorem execTop_agree (loader : Int → Option (List GenomeItem)) (M : Nat) :
    ∀ (l : List GenomeItem),
      (∀ it ∈ l, callerItemOk it = true) →
      (∀ it ∈ l, it.enabled = true → it.targetValue.toNat ≤ M ∧
        (it.sourceType = ParameterType.direct → it.sourceValue.toNat ≤ M)) →
      ∀ (t t2 : RegFile), (∀ r, r ≤ M → t r = t2 r) →
      (execTop loader l t = none ∧ execTop loader l t2 = none) ∨
      (∃ u u2, execTop loader l t = some u ∧ execTop loader l t2 = some u2 ∧
        ∀ r, r ≤ M → u r = u2 r) := by
  intro l
  induction l with
  | nil => intro _ _ t t2 hagree; exact Or.inr ⟨t, t2, rfl, rfl, hagree⟩
  | cons item rest ih =>
      intro hok hbound t t2 hagree
      have hokItem := hok item (List.mem_cons_self _ _)
      have ihApplied := ih (fun it h => hok it (List.mem_cons_of_mem _ h))
        (fun it h => hbound it (List.mem_cons_of_mem _ h))
      show ((execTopItem loader item t).bind (execTop loader rest) = none ∧
        (execTopItem loader item t2).bind (execTop loader rest) = none) ∨
        (∃ u u2, (execTopItem loader item t).bind (execTop loader rest) = some u ∧
          (execTopItem loader item t2).bind (execTop loader rest) = some u2 ∧
          ∀ r, r ≤ M → u r = u2 r)
      by_cases hen : item.enabled = true
      · have hb := hbound item (List.mem_cons_self _ _) hen
        unfold callerItemOk at hokItem
        simp only [Bool.or_eq_true, Bool.and_eq_true, beq_iff_eq, decide_eq_true_eq,
          Bool.not_eq_true'] at hokItem
        rcases hokItem with (hdis | ⟨⟨⟨hplain, htt⟩, htv⟩, hsrc⟩) |
          ⟨⟨⟨⟨hseq, htt⟩, htv⟩, hsc⟩, hsv⟩
        · rw [hdis] at hen; cases hen
        · -- plain row
          have hstep : execTopItem loader item t = execPlainItem item t := by
            unfold execTopItem
            rw [hen]
            rw [if_neg (by simp)]
            rw [if_neg (by simpa using plainOpOk_ne_seq hplain)]
          have hstep2 : execTopItem loader item t2 = execPlainItem item t2 := by
            unfold execTopItem
            rw [hen]
            rw [if_neg (by simp)]
            rw [if_neg (by simpa using plainOpOk_ne_seq hplain)]
          have hsrc' : item.sourceType = ParameterType.constant ∨
              (item.sourceType = ParameterType.direct ∧ 0 ≤ item.sourceValue) := by
            rcases hsrc with h | h
            · exact Or.inl h
            · exact Or.inr ⟨h.1, h.2⟩
          rcases execPlainItem_agree M item hplain htt htv hsrc' hb.1 hb.2 t t2 hagree with
            ⟨hn1, hn2⟩ | ⟨u, u2, hu1, hu2, hagree2⟩
          · left
            rw [hstep, hstep2, hn1, hn2]
            exact ⟨rfl, rfl⟩
          · rw [hstep, hstep2, hu1, hu2]
            simp only [Option.some_bind]
            exact ihApplied u u2 hagree2
        · -- seq row
          have hinit : (fun j => if j = 0 then t item.targetValue.toNat else 0) =
              (fun j => if j = 0 then t2 item.targetValue.toNat else 0) := by
            funext j
            rw [hagree _ hb.1]
          have hstep : ∀ (w : RegFile), execTopItem loader item w =
              (match loader item.sourceValue with
               | none => none
               | some callee =>
                   match execStraight callee
                       (fun j => if j = 0 then w item.targetValue.toNat else 0) with
                   | none => none
                   | some c => some (updReg w item.targetValue.toNat (c 0))) := by
            intro w
            unfold execTopItem
            rw [hen]
            rw [if_neg (by simp)]
            rw [if_pos (by simpa using hseq)]
            rw [if_neg (by simp [hsc]), if_neg (not_lt.mpr hsv), if_neg (by simp [htt]),
              if_neg (not_lt.mpr htv)]
          rw [hstep t, hstep t2, ← hinit]
          cases hload : loader item.sourceValue with
          | none => exact Or.inl ⟨rfl, rfl⟩
          | some callee =>
              dsimp only
              cases hcall : execStraight callee
                  (fun j => if j = 0 then t item.targetValue.toNat else 0) with
              | none => exact Or.inl ⟨rfl, rfl⟩
              | some c =>
                  dsimp only
                  simp only [Option.some_bind]
                  refine ihApplied _ _ ?_
                  intro r hr
                  unfold updReg
                  split
                  · rfl
                  · exact hagree r hr
      · have hstep : execTopItem loader item t = some t := by
          unfold execTopItem
          rw [if_pos (by simpa using hen)]
        have hstep2 : execTopItem loader item t2 = some t2 := by
          unfold execTopItem
          rw [if_pos (by simpa using hen)]
        rw [hstep, hstep2]
        simp only [Option.some_bind]
        exact ihApplied t t2 hagree

/-- A caller row that passes `callerItemOk` and is enabled addresses
only registers up to the caller's `max_register`. -/
theorem callerItemOk_bounds {gv : List GenomeItem} {item : GenomeItem}
    (hmem : item ∈ gv) (hok : callerItemOk item = true) (hen : item.enabled = true) :
    item.targetValue.toNat ≤ maxRegisterOf gv ∧
    (item.sourceType = ParameterType.direct →
      item.sourceValue.toNat ≤ maxRegisterOf gv) := by
  unfold callerItemOk at hok
  simp only [Bool.or_eq_true, Bool.and_eq_true, beq_iff_eq, decide_eq_true_eq,
    Bool.not_eq_true'] at hok
  rcases hok with (hdis | ⟨⟨⟨-, htt⟩, htv⟩, hsrc⟩) | ⟨⟨⟨⟨-, htt⟩, htv⟩, hsc⟩, -⟩
  · rw [hdis] at hen; cases hen
  · refine ⟨targetReg_le_maxRegisterOf hmem hen htt htv, ?_⟩
    intro hdir
    rcases hsrc with h | ⟨h1, h2⟩
    · cases h.symm.trans hdir
    · exact sourceReg_le_maxRegisterOf hmem hen h1 h2
  · refine ⟨targetReg_le_maxRegisterOf hmem hen htt htv, ?_⟩
    intro hdir
    cases hsc.symm.trans hdir

/-- Splicing an all-plain, register-bounded callee in place of an
enabled `seq` row with a direct target preserves the observable result:
on every start state, the inlined and the original caller fail together
and otherwise agree on every register up to the caller's
`max_register`. -/
theorem inlineAt_preserves (loader : Int → Option (List GenomeItem))
    (gv : List GenomeItem) (idx : Nat) (item : GenomeItem) (callee : List GenomeItem)
    (hget : gv.get? idx = some item)
    (hen : item.enabled = true)
    (hseq : item.instructionId = InstructionId.evalSequence)
    (hsc : item.sourceType = ParameterType.constant)
    (hsv : 0 ≤ item.sourceValue)
    (htt : item.targetType = RegisterType.direct)
    (htv : 0 ≤ item.targetValue)
    (hload : loader item.sourceValue = some callee)
    (hcallee : ∀ it ∈ callee, calleeItemOk it = true)
    (hcaller : ∀ it ∈ gv, callerItemOk it = true)
    (s : RegFile) (r : Nat) (hr : r ≤ maxRegisterOf gv) :
    (execTop loader
        (inlineAt gv idx callee (maxRegisterOf gv) item.targetValue.toNat) s).map
        (fun u => u r) =
      (execTop loader gv s).map (fun u => u r) := by
  have hmemItem : item ∈ gv := List.get?_mem hget
  have hio : item.targetValue.toNat ≤ maxRegisterOf gv :=
    targetReg_le_maxRegisterOf hmemItem hen htt htv
  have hgvSplit : gv = gv.take idx ++ item :: gv.drop (idx + 1) :=
    list_eq_take_cons_drop gv idx item hget
  have hRHS : execTop loader gv s = (execTop loader (gv.take idx) s).bind
      (fun s1 => (execTopItem loader item s1).bind
        (execTop loader (gv.drop (idx + 1)))) := by
    conv_lhs => rw [hgvSplit]
    rw [execTop_append]
    rfl
  have hLHS : execTop loader
      (inlineAt gv idx callee (maxRegisterOf gv) item.targetValue.toNat) s =
      (execTop loader (gv.take idx) s).bind
        (fun s1 => (execTop loader
            (inlineReplacement callee (maxRegisterOf gv) item.targetValue.toNat) s1).bind
          (execTop loader (gv.drop (idx + 1)))) := by
    unfold inlineAt
    rw [execTop_append, execTop_append, Option.bind_assoc]
  rw [hLHS, hRHS]
  cases hfront : execTop loader (gv.take idx) s with
  | none => rfl
  | some s1 =>
      simp only [Option.some_bind]
      have hstep : execTopItem loader item s1 =
          (match execStraight callee
              (fun j => if j = 0 then s1 item.targetValue.toNat else 0) with
           | none => none
           | some c => some (updReg s1 item.targetValue.toNat (c 0))) := by
        unfold execTopItem
        rw [hen]
        rw [if_neg (by simp)]
        rw [if_pos (by simpa using hseq)]
        rw [if_neg (by simp [hsc]), if_neg (not_lt.mpr hsv), if_neg (by simp [htt]),
          if_neg (not_lt.mpr htv), hload]
      obtain ⟨hnone, hsome⟩ := inlineReplacement_sim loader callee (maxRegisterOf gv)
        item.targetValue.toNat hio hcallee s1
      cases hcall : execStraight callee
          (fun j => if j = 0 then s1 item.targetValue.toNat else 0) with
      | none =>
          rw [hstep, hcall, hnone hcall]
      | some c =>
          obtain ⟨t2, ht2, hinout, hframe⟩ := hsome c hcall
          rw [hstep, hcall, ht2]
          simp only [Option.some_bind]
          have hagree : ∀ q, q ≤ maxRegisterOf gv →
              t2 q = updReg s1 item.targetValue.toNat (c 0) q := by
            intro q hq
            unfold updReg
            by_cases hq2 : q = item.targetValue.toNat
            · rw [if_pos hq2, hq2, hinout]
            · rw [if_neg hq2]
              exact hframe q hq hq2
          have hokDrop : ∀ it ∈ gv.drop (idx + 1), callerItemOk it = true :=
            fun it h => hcaller it (List.mem_of_mem_drop h)
          have hboundDrop : ∀ it ∈ gv.drop (idx + 1), it.enabled = true →
              it.targetValue.toNat ≤ maxRegisterOf gv ∧
              (it.sourceType = ParameterType.direct →
                it.sourceValue.toNat ≤ maxRegisterOf gv) := by
            intro it hmem hen'
            exact callerItemOk_bounds (List.mem_of_mem_drop hmem) (hokDrop it hmem) hen'
          rcases execTop_agree loader (maxRegisterOf gv) (gv.drop (idx + 1)) hokDrop
              hboundDrop t2 (updReg s1 item.targetValue.toNat (c 0)) hagree with
            ⟨hn1, hn2⟩ | ⟨u, u2, hu1, hu2, hagree2⟩
          · rw [hn1, hn2]
          · rw [hu1, hu2]
            show some (u r) = some (u2 r)
            rw [hagree2 r hr]

/-- C4 (amended): when `mutate_inline_seq` succeeds on a caller whose
rows all fit the modelled scope (each row disabled, or a straight-line
opcode with a direct nonnegative target and a constant or direct
nonnegative source, or a `seq` with a direct nonnegative target and a
nonnegative constant source), the chosen `seq` row is enabled with a
direct target, and the loaded callee is straight-line with direct
nonnegative targets and constant-or-direct nonnegative sources, then
inlining preserves external behavior: from every initial state the
inlined and the original caller fail together, and otherwise end with
identical contents in every register visible to the caller (register
index at most the caller's `max_register`). -/
theorem mutateInlineSeq_preserves_visible_registers
    (loader : Int → Option (List GenomeItem)) (gv gv2 : List GenomeItem)
    (rng rng2 : Rng) (item : GenomeItem) (callee : List GenomeItem)
    (hmut : mutateInlineSeq loader gv rng = (true, gv2, rng2))
    (hget : gv.get? (chooseIdx (eligibleIndexes gv (fun it =>
      it.sourceType == ParameterType.constant &&
      it.instructionId == InstructionId.evalSequence)) rng).1 = some item)
    (hen : item.enabled = true)
    (htt : item.targetType = RegisterType.direct)
    (hload : loader item.sourceValue = some callee)
    (hcallee : ∀ it ∈ callee, calleeItemOk it = true)
    (hcaller : ∀ it ∈ gv, callerItemOk it = true)
    (s : RegFile) (r : Nat) (hr : r ≤ maxRegisterOf gv) :
    (execTop loader gv2 s).map (fun u => u r) =
      (execTop loader gv s).map (fun u => u r) := by
  unfold mutateInlineSeq at hmut
  dsimp only at hmut
  cases hne : (eligibleIndexes gv (fun it =>
      it.sourceType == ParameterType.constant &&
      it.instructionId == InstructionId.evalSequence)).isEmpty with
  | true =>
      rw [if_pos hne] at hmut
      exact absurd (congrArg Prod.fst hmut) (by simp)
  | false =>
      rw [if_neg (by rw [hne]; simp)] at hmut
      rw [hget] at hmut
      dsimp only at hmut
      have hseq : item.instructionId = InstructionId.evalSequence := by
        by_contra hc
        rw [if_pos (by simpa using hc)] at hmut
        exact absurd (congrArg Prod.fst hmut) (by simp)
      rw [if_neg (by simp [hseq])] at hmut
      have hsc : item.sourceType = ParameterType.constant := by
        by_contra hc
        rw [if_pos (by simpa using hc)] at hmut
        exact absurd (congrArg Prod.fst hmut) (by simp)
      rw [if_neg (by simp [hsc])] at hmut
      have hsv : ¬ item.sourceValue < 0 := by
        intro hc
        rw [if_pos hc] at hmut
        exact absurd (congrArg Prod.fst hmut) (by simp)
      rw [if_neg hsv] at hmut
      have htv : ¬ item.targetValue < 0 := by
        intro hc
        rw [if_pos hc] at hmut
        exact absurd (congrArg Prod.fst hmut) (by simp)
      rw [if_neg htv] at hmut
      rw [hload] at hmut
      dsimp only at hmut
      have hgv2 : gv2 = inlineAt gv (chooseIdx (eligibleIndexes gv (fun it =>
          it.sourceType == ParameterType.constant &&
          it.instructionId == InstructionId.evalSequence)) rng).1 callee
          (maxRegisterOf gv) item.targetValue.toNat :=
        (congrArg (fun p => p.2.1) hmut).symm
      subst hgv2
      exact inlineAt_preserves loader gv _ item callee hget hen hseq hsc
        (not_lt.mp hsv) htt (not_lt.mp htv) hload hcallee hcaller s r hr

/-- The amended C4 theorem at the concrete caller `seq $0,7` with
callee `add $1,1` and the state where register 1 holds 7: the caller's
visible window is register 0 alone, and there the inlined and the
original program agree. -/
theorem mutateInlineSeq_preserves_visible_registers_witness :
    (execTop loaderB (mutateInlineSeq loaderB [seqRowB] [0]).2.1 stateB).map
        (fun u => u 0) =
      (execTop loaderB [seqRowB] stateB).map (fun u => u 0) :=
  mutateInlineSeq_preserves_visible_registers loaderB [seqRowB]
    (mutateInlineSeq loaderB [seqRowB] [0]).2.1 [0]
    (mutateInlineSeq loaderB [seqRowB] [0]).2.2 seqRowB calleeB
    (by decide) (by decide) (by decide) (by decide) (by decide)
    (by decide) (by decide) stateB 0 (by decide)

end LodaRust
